import Mathlib

/-!
# Point lookup of the on-disk B-tree: `src/btree/get.cc`

A shallow embedding of `co_btree_get` and `btree_get`.

The coroutine is embedded by explicit state passing.  Its state is the thread it
is currently running on together with the trace of the operations it has issued
so far, each one tagged with the thread on which it was issued.  Everything the
function calls (buffer cache, node codec, values, large buffers, scheduler) lives
in headers that are not part of the sources at hand; those collaborators are
represented by the data they return, as described at each definition.

The perfmon objects (`block_pm_duration`) in the source have no influence on the
control flow and are left out of the embedding.
-/

namespace Btree

/-! ## Data model -/

/-- A block identifier of the buffer cache. -/
abbrev block_id_t := Nat

/-- Modelled from the spec: the reserved id of the superblock (`SUPERBLOCK_ID` is declared
in the buffer cache headers, which are missing).  The spec only says that it is a reserved
id different from `NULL_BLOCK_ID`; the numeric value is immaterial. -/
def SUPERBLOCK_ID : block_id_t := 0

/-- Modelled from the spec: the reserved id that stands for the absence of a root or child
(`NULL_BLOCK_ID` is declared in the buffer cache headers, which are missing).  The numeric
value is immaterial, only that it differs from `SUPERBLOCK_ID`. -/
def NULL_BLOCK_ID : block_id_t := 4294967295

/-- A key: a string of bytes. -/
abbrev btree_key := List Nat

/-- The access modes of the buffer cache; `co_btree_get` only ever uses `rwi_read`. -/
inductive access_t
  | rwi_read
  | rwi_write
  deriving DecidableEq, Repr

/-- A reference to a large value: its root block and its size metadata. -/
structure large_buf_ref where
  block_id : block_id_t
  size : Nat
  deriving DecidableEq, Repr

/-- A value as found in a leaf (`btree_value`).  Its class is declared in a header that is
missing, so a value is represented by what its accessors answer: `is_large()`, `value()` and
`value_size()` for the bytes of an inline value, `lb_ref()` for the reference of a large one,
`mcflags()`, and the optional expiration time that `expired()` reads. -/
structure btree_value where
  is_large : Bool
  value : List Nat
  value_size : Nat
  lb_ref : large_buf_ref
  mcflags : Nat
  exptime : Option Nat
  deriving DecidableEq, Repr

/-- Modelled from the spec: `btree_value::expired()` is defined in a header that is missing.
Spec 4.4: false if no expiration is set, else `now >= expiration_time`. -/
def btree_value.expired (v : btree_value) (now : Nat) : Bool :=
  match v.exptime with
  | none => false
  | some t => decide (t ≤ now)

/-- A block seen as a tree node.  The node codec is not part of the sources at hand, so a
block is represented by what its three pure functions answer on it: `node::is_internal(node)`,
`internal_node::lookup(node, key)`, and `leaf::lookup(node, key, &value)`, for which `none`
stands for the result `false` and `some v` for `true` with `v` written to `value`. -/
structure node_t where
  is_internal : Bool
  internal_lookup : btree_key → block_id_t
  leaf_lookup : btree_key → Option btree_value

/-- The superblock. -/
structure btree_superblock_t where
  root_block : block_id_t

/-- The states of a large buffer that the lookup tells apart: `loaded` and anything else. -/
inductive large_buf_state_t
  | not_loaded
  | loaded
  deriving DecidableEq, Repr

/-- A large buffer after an acquisition attempt: its state, the reference it records, and
its segments, `get_segment i` being the data and the size of segment `i`. -/
structure large_buf_t where
  state : large_buf_state_t
  get_root_ref : large_buf_ref
  get_num_segments : Nat
  get_segment : Nat → List Nat × Nat

/-- What is stored for a large value in the cache: whether loading it reaches the state
`loaded`, and the segments. -/
structure stored_large_value_t where
  state : large_buf_state_t
  num_segments : Nat
  segment : Nat → List Nat × Nat

/-- The content of the buffer cache as far as a lookup reads it. -/
structure cache_t where
  superblock : btree_superblock_t
  block : block_id_t → node_t
  large_value : large_buf_ref → stored_large_value_t

/-- A slice: a cache and the thread that owns it. -/
structure btree_slice_t where
  cache : cache_t
  home_thread : Nat

/-- One buffer of a buffer group: a size and the data. -/
structure buffer_t where
  size : Nat
  data : List Nat
  deriving DecidableEq, Repr

/-- An ordered group of read-only buffers. -/
abbrev const_buffer_group_t := List buffer_t

/-- The call `add_buffer(size, data)`: one more buffer at the end of the group. -/
def add_buffer (g : const_buffer_group_t) (size : Nat) (data : List Nat) :
    const_buffer_group_t :=
  g ++ [{ size := size, data := data }]

/-- The result handed to the promise: the three leading arguments of
`co_deliver_get_result`, a null buffer group standing for "not found". -/
structure get_result_t where
  buffer : Option const_buffer_group_t
  flags : Nat
  cas : Nat
  deriving DecidableEq, Repr

/-- The result "not found": `co_deliver_get_result(NULL, 0, 0, res)`. -/
def NotFound : get_result_t := { buffer := none, flags := 0, cas := 0 }

/-- The result "found": `co_deliver_get_result(&value_buffers, flags, 0, res)`. -/
def Found (buffers : const_buffer_group_t) (flags : Nat) : get_result_t :=
  { buffer := some buffers, flags := flags, cas := 0 }

/-! ## The trace of a lookup -/

/-- The uses that the lookup makes of `buf_lock.buf()->get_data_read()`. -/
inductive read_t
  | root_block
  | validate
  | is_internal
  | internal_lookup
  | leaf_lookup
  deriving DecidableEq, Repr

/-- The operations a lookup issues. -/
inductive op_t
  | move_to_thread (target : Nat)
  | transactor_begin (mode : access_t)
  | buf_lock_acquire (id : block_id_t) (mode : access_t)
  | buf_lock_release (id : block_id_t)
  | get_data_read (id : block_id_t) (use : read_t)
  | delete_expired (key : btree_key)
  | large_acquire (lb_ref : large_buf_ref) (mode : access_t)
  | large_release (lb_ref : large_buf_ref)
  | commit
  | deliver (res : get_result_t)
  deriving DecidableEq, Repr

/-- An operation together with the thread on which it was issued. -/
structure event_t where
  thread : Nat
  op : op_t
  deriving DecidableEq, Repr

/-- The state of the coroutine: the thread it runs on and what it has done so far. -/
structure coro_t where
  thread : Nat
  trace : List event_t
  deriving DecidableEq, Repr

/-- Issue one operation on the current thread. -/
def coro_t.emit (c : coro_t) (o : op_t) : coro_t :=
  { thread := c.thread, trace := c.trace ++ [{ thread := c.thread, op := o }] }

/-- The call `coro_t::move_to_thread(t)`: requested on the current thread, after it the
coroutine runs on `t`. -/
def coro_t.move_to_thread (c : coro_t) (t : Nat) : coro_t :=
  { thread := t, trace := c.trace ++ [{ thread := c.thread, op := .move_to_thread t }] }

/-- How a run ends: the function returns, an `rassert` fails, or the descent loop is still
running when the fuel is used up. -/
inductive exit_t
  | returned
  | rassert_failed
  | out_of_fuel
  deriving DecidableEq, Repr

/-! ## Collaborators that are not part of the sources at hand -/

/-- Modelled from the spec: `rassert` is a macro of a header that is missing.  Spec 4.1 and 7:
a failing assertion on the structure of the tree is fatal, the lookup ends on the spot and
answers nothing.  `rassert cond` tells whether the run goes on. -/
def rassert (cond : Bool) : Bool := cond

/-- Modelled from the spec: `on_thread_t` is declared in a header that is missing.  Spec 4.1,
step 9, and the comment in the source on the path for large values: constructing it moves the
coroutine to the given thread; the result keeps the thread to go back to. -/
def on_thread_t.enter (c : coro_t) (t : Nat) : coro_t × Nat :=
  (c.move_to_thread t, c.thread)

/-- Modelled from the spec: the end of the scope of an `on_thread_t` moves the coroutine back
to the thread it was constructed on. -/
def on_thread_t.leave (c : coro_t) (back : Nat) : coro_t :=
  c.move_to_thread back

/-- Modelled from the spec: `co_deliver_get_result` is declared in a header that is missing.
Spec 4.1: it delivers the result to the promise of the caller, on the current thread. -/
def co_deliver_get_result (c : coro_t) (buffer : Option const_buffer_group_t)
    (flags cas : Nat) : coro_t :=
  c.emit (.deliver { buffer := buffer, flags := flags, cas := cas })

/-- Modelled from the spec: `btree_delete_expired` is declared in a header that is missing.
Spec 6: a fire-and-forget invocation of the sweeper for the key. -/
def btree_delete_expired (c : coro_t) (key : btree_key) : coro_t :=
  c.emit (.delete_expired key)

/-- Modelled from the spec: `co_acquire_large_value` is declared in a header that is missing.
Spec 4.5: opening loads the segments of the referenced large value, and the buffer records
the reference it was opened with. -/
def co_acquire_large_value (cache : cache_t) (lb_ref : large_buf_ref) : large_buf_t :=
  { state := (cache.large_value lb_ref).state
    get_root_ref := lb_ref
    get_num_segments := (cache.large_value lb_ref).num_segments
    get_segment := (cache.large_value lb_ref).segment }

/-! ## The lookup -/

/-- The loop `while (true)` of `co_btree_get` (lines 52 to 72).  `held` is the block that
`buf_lock` holds on entry, `node_id` the block to acquire next.  Returns the state of the
coroutine, the block that `buf_lock` holds, and how the loop was left: `returned` stands for
the `break` at a leaf. -/
def descend (NDEBUG : Bool) (cache : cache_t) (key : btree_key) :
    Nat → coro_t → block_id_t → block_id_t → coro_t × block_id_t × exit_t
  | 0, c, held, _ => (c, held, .out_of_fuel)
  | fuel + 1, c, held, node_id =>
    -- { buf_lock_t tmp(transactor, node_id, rwi_read); buf_lock.swap(tmp); }
    let c := c.emit (.buf_lock_acquire node_id .rwi_read)
    let c := c.emit (.buf_lock_release held)
    -- #ifndef NDEBUG node::validate(...) #endif
    let c := if NDEBUG then c else c.emit (.get_data_read node_id .validate)
    let node := cache.block node_id
    let c := c.emit (.get_data_read node_id .is_internal)
    if !node.is_internal then (c, node_id, .returned)
    else
      let c := c.emit (.get_data_read node_id .internal_lookup)
      let next_node_id := node.internal_lookup key
      if !rassert (decide (next_node_id ≠ NULL_BLOCK_ID)) then (c, node_id, .rassert_failed)
      else if !rassert (decide (next_node_id ≠ SUPERBLOCK_ID)) then (c, node_id, .rassert_failed)
      else descend NDEBUG cache key fuel c node_id next_node_id

/-- The loop over the segments of a loaded large value (lines 110 to 115).  In the source the
size of a segment is written to a `uint16_t`; the embedding takes the size as `get_segment`
reports it. -/
def collect_segments (large_value : large_buf_t) : const_buffer_group_t :=
  (List.range large_value.get_num_segments).foldl
    (fun value_buffers i =>
      add_buffer value_buffers (large_value.get_segment i).2 (large_value.get_segment i).1)
    []

/-- The function `co_btree_get` (lines 14 to 135), started on thread `caller` with the clock
reading `now` at the expiration test.  `fuel` bounds the number of iterations of the descent
loop.  On every path on which the function returns, `buf_lock` has been released and the
transaction committed by the explicit calls, so that the destructors that run at the end of
the function have nothing left to do; they issue no event. -/
def co_btree_get (NDEBUG : Bool) (fuel now : Nat) (key : btree_key) (slice : btree_slice_t)
    (caller : Nat) : coro_t × exit_t :=
  let c : coro_t := { thread := caller, trace := [] }
  let cache := slice.cache
  let home_thread := c.thread
  let c := c.move_to_thread slice.home_thread
  let c := c.emit (.transactor_begin .rwi_read)
  let c := c.emit (.buf_lock_acquire SUPERBLOCK_ID .rwi_read)
  let c := c.emit (.get_data_read SUPERBLOCK_ID .root_block)
  let node_id := cache.superblock.root_block
  if !rassert (decide (node_id ≠ SUPERBLOCK_ID)) then (c, .rassert_failed)
  else if node_id = NULL_BLOCK_ID then
    let c := c.emit (.buf_lock_release SUPERBLOCK_ID)
    let c := c.emit .commit
    let c := c.move_to_thread home_thread
    let c := co_deliver_get_result c none 0 0
    (c, .returned)
  else
    match descend NDEBUG cache key fuel c SUPERBLOCK_ID node_id with
    | (c, _, .rassert_failed) => (c, .rassert_failed)
    | (c, _, .out_of_fuel) => (c, .out_of_fuel)
    | (c, leaf_id, .returned) =>
      let c := c.emit (.get_data_read leaf_id .leaf_lookup)
      let found := (cache.block leaf_id).leaf_lookup key
      let c := c.emit (.buf_lock_release leaf_id)
      -- if (found && value.expired()) { btree_delete_expired(key, slice); found = false; }
      let swept := match found with
        | some value => value.expired now
        | none => false
      let c := if swept then btree_delete_expired c key else c
      let found := if swept then none else found
      match found with
      | none =>
        let c := c.emit .commit
        let c := c.move_to_thread home_thread
        let c := co_deliver_get_result c none 0 0
        (c, .returned)
      | some value =>
        if value.is_large then
          if !rassert value.is_large then (c, .rassert_failed)
          else
            let large_value := co_acquire_large_value cache value.lb_ref
            let c := c.emit (.large_acquire value.lb_ref .rwi_read)
            if !rassert (decide (large_value.state = .loaded)) then (c, .rassert_failed)
            else if !rassert (decide (large_value.get_root_ref.block_id = value.lb_ref.block_id))
            then (c, .rassert_failed)
            else
              let value_buffers := collect_segments large_value
              let c := c.move_to_thread home_thread
              let c := co_deliver_get_result c (some value_buffers) value.mcflags 0
              -- { on_thread_t mover(slice->home_thread); ... }
              let (c, back) := on_thread_t.enter c slice.home_thread
              let c := c.emit (.large_release value.lb_ref)
              let c := c.emit .commit
              let c := on_thread_t.leave c back
              (c, .returned)
        else
          let c := c.emit .commit
          let value_buffers := add_buffer [] value.value_size value.value
          let c := c.move_to_thread home_thread
          let c := co_deliver_get_result c (some value_buffers) value.mcflags 0
          (c, .returned)

/-- The results delivered to the promise in the course of a trace, in order. -/
def delivered (tr : List event_t) : List get_result_t :=
  tr.filterMap fun e =>
    match e.op with
    | .deliver res => some res
    | _ => none

/-- The function `btree_get` (lines 137 to 141): spawn `co_btree_get` and wait on the
promise; `none` when nothing is ever delivered. -/
def btree_get (NDEBUG : Bool) (fuel now : Nat) (key : btree_key) (slice : btree_slice_t)
    (caller : Nat) : Option get_result_t :=
  (delivered (co_btree_get NDEBUG fuel now key slice caller).1.trace).head?

/-! ## Observations on traces -/

/-- The blocks on which a lock was acquired, in order. -/
def acquired (tr : List event_t) : List block_id_t :=
  tr.filterMap fun e =>
    match e.op with
    | .buf_lock_acquire id _ => some id
    | _ => none

/-- The blocks whose lock was released, in order. -/
def released (tr : List event_t) : List block_id_t :=
  tr.filterMap fun e =>
    match e.op with
    | .buf_lock_release id => some id
    | _ => none

/-- The keys for which the expiration sweeper was invoked, in order. -/
def sweeps (tr : List event_t) : List btree_key :=
  tr.filterMap fun e =>
    match e.op with
    | .delete_expired key => some key
    | _ => none

/-- The large values that were loaded, in order. -/
def large_loads (tr : List event_t) : List large_buf_ref :=
  tr.filterMap fun e =>
    match e.op with
    | .large_acquire lb_ref _ => some lb_ref
    | _ => none

/-- The number of commits of the transaction. -/
def commits (tr : List event_t) : Nat :=
  tr.countP fun e => decide (e.op = .commit)

/-- The effect of one event on the list of block locks held (most recent first). -/
def lock_step (held : List block_id_t) (e : event_t) : List block_id_t :=
  match e.op with
  | .buf_lock_acquire id _ => id :: held
  | .buf_lock_release id => held.erase id
  | _ => held

/-- The block locks held after a trace, starting from the locks `held`. -/
def locks_after (held : List block_id_t) (tr : List event_t) : List block_id_t :=
  tr.foldl lock_step held

/-- The block locks held after a trace that starts with no lock held. -/
def locks_held (tr : List event_t) : List block_id_t := locks_after [] tr

/-- The operations on the buffer cache: opening and committing the transaction, acquiring and
releasing block locks, reading a block, loading and releasing a large value. -/
def is_cache_op : op_t → Bool
  | .transactor_begin _ => true
  | .buf_lock_acquire _ _ => true
  | .buf_lock_release _ => true
  | .get_data_read _ _ => true
  | .large_acquire _ _ => true
  | .large_release _ => true
  | .commit => true
  | _ => false

/-- The deliveries of a result. -/
def is_deliver : op_t → Bool
  | .deliver _ => true
  | _ => false

/-- The milestones of a lookup: deliveries of a result, releases of a large value, and
commits, with the threads on which they happen. -/
def milestones (tr : List event_t) : List event_t :=
  tr.filter fun e =>
    match e.op with
    | .deliver _ => true
    | .large_release _ => true
    | .commit => true
    | _ => false

/-! ## Paths in the tree -/

/-- A block id that may be followed: neither of the two reserved ids. -/
def valid_child (id : block_id_t) : Bool :=
  decide (id ≠ NULL_BLOCK_ID) && decide (id ≠ SUPERBLOCK_ID)

/-- The node reached from `n` after `k` steps along `internal_node::lookup` for `key`, every
step leaving an internal node for a valid child; `none` when there is no such path. -/
def follow (cache : cache_t) (key : btree_key) : Nat → block_id_t → Option block_id_t
  | 0, n => some n
  | k + 1, n =>
    if (cache.block n).is_internal && valid_child ((cache.block n).internal_lookup key) then
      follow cache key k ((cache.block n).internal_lookup key)
    else none

/-- The nodes met from `n` in `k` steps along `internal_node::lookup` for `key`, `n` first. -/
def visited (cache : cache_t) (key : btree_key) : Nat → block_id_t → List block_id_t
  | 0, n => [n]
  | k + 1, n => n :: visited cache key k ((cache.block n).internal_lookup key)

/-! ## The descent loop -/

/-- The events issued by the descent loop when started on thread `th`. -/
def dtrace (NDEBUG : Bool) (cache : cache_t) (key : btree_key) (fuel th : Nat)
    (held node_id : block_id_t) : List event_t :=
  (descend NDEBUG cache key fuel { thread := th, trace := [] } held node_id).1.trace

/-- The block that `buf_lock` holds when the descent loop is left. -/
def dheld (NDEBUG : Bool) (cache : cache_t) (key : btree_key) (fuel th : Nat)
    (held node_id : block_id_t) : block_id_t :=
  (descend NDEBUG cache key fuel { thread := th, trace := [] } held node_id).2.1

/-- How the descent loop is left. -/
def dexit (NDEBUG : Bool) (cache : cache_t) (key : btree_key) (fuel th : Nat)
    (held node_id : block_id_t) : exit_t :=
  (descend NDEBUG cache key fuel { thread := th, trace := [] } held node_id).2.2

/-! ## The pieces of a trace -/

/-- The events up to the reading of the root block id. -/
def prologue (home caller : Nat) : List event_t :=
  [{ thread := caller, op := .move_to_thread home },
    { thread := home, op := .transactor_begin .rwi_read },
    { thread := home, op := .buf_lock_acquire SUPERBLOCK_ID .rwi_read },
    { thread := home, op := .get_data_read SUPERBLOCK_ID .root_block }]

/-- The events of an answer that needs no large value: commit, go back to the caller's
thread, deliver. -/
def answer_events (home caller : Nat) (res : get_result_t) : List event_t :=
  [{ thread := home, op := .commit },
    { thread := home, op := .move_to_thread caller },
    { thread := caller, op := .deliver res }]

/-- The events of the examination of the leaf. -/
def leaf_events (home : Nat) (leaf_id : block_id_t) : List event_t :=
  [{ thread := home, op := .get_data_read leaf_id .leaf_lookup },
    { thread := home, op := .buf_lock_release leaf_id }]

/-- The events of the answer with a large value. -/
def large_found_events (home caller : Nat) (lb_ref : large_buf_ref) (res : get_result_t) :
    List event_t :=
  [{ thread := home, op := .large_acquire lb_ref .rwi_read },
    { thread := home, op := .move_to_thread caller },
    { thread := caller, op := .deliver res },
    { thread := caller, op := .move_to_thread home },
    { thread := home, op := .large_release lb_ref },
    { thread := home, op := .commit },
    { thread := home, op := .move_to_thread caller }]

/-! ## Lock discipline -/

/-- What the locking discipline asks of one event, given the locks held before it: a lock is
acquired only while at most one is held, the lock released is the oldest one held, a block is
read only while its lock and no other is held, the thread is left only with no lock held, and
anything else happens with at most one lock held. -/
def step_ok (held : List block_id_t) (e : event_t) : Bool :=
  match e.op with
  | .buf_lock_acquire _ _ => decide (held.length ≤ 1)
  | .buf_lock_release id => decide (held.getLast? = some id)
  | .get_data_read id _ => decide (held = [id])
  | .move_to_thread _ => decide (held = [])
  | _ => decide (held.length ≤ 1)

/-- Every event of a trace respects the locking discipline, starting from the locks `held`. -/
def disciplined : List block_id_t → List event_t → Bool
  | _, [] => true
  | held, e :: es => step_ok held e && disciplined (lock_step held e) es

/-! ## Sample caches -/

/-- An inline value with the given bytes, flags and expiration time. -/
def sample_inline (bytes : List Nat) (mcflags : Nat) (exptime : Option Nat) : btree_value :=
  { is_large := false, value := bytes, value_size := bytes.length,
    lb_ref := { block_id := NULL_BLOCK_ID, size := 0 }, mcflags := mcflags, exptime := exptime }

/-- A large value of three bytes rooted at the given block, with flags and expiration time. -/
def sample_large (root : block_id_t) (mcflags : Nat) (exptime : Option Nat) : btree_value :=
  { is_large := true, value := [], value_size := 0,
    lb_ref := { block_id := root, size := 3 }, mcflags := mcflags, exptime := exptime }

/-- A sample leaf: key `[1]` has an inline value that never expires, key `[2]` an inline value
expiring at time 10, key `[3]` a large value expiring at time 10 whose buffer is stored under
block 50, key `[4]` a large value expiring at time 10 whose buffer is stored under block 60. -/
def sample_leaf : node_t :=
  { is_internal := false
    internal_lookup := fun _ => NULL_BLOCK_ID
    leaf_lookup := fun key =>
      if key = [1] then some (sample_inline [7, 8] 5 none)
      else if key = [2] then some (sample_inline [9] 1 (some 10))
      else if key = [3] then some (sample_large 50 6 (some 10))
      else if key = [4] then some (sample_large 60 2 (some 10))
      else none }

/-- The sample large values: the one under block 50 loads with the two segments `[1, 2]` and
`[3]`, any other one does not reach the state `loaded`. -/
def sample_large_value (lb_ref : large_buf_ref) : stored_large_value_t :=
  if lb_ref.block_id = 50 then
    { state := .loaded
      num_segments := 2
      segment := fun i => if i = 0 then ([1, 2], 2) else ([3], 1) }
  else { state := .not_loaded, num_segments := 0, segment := fun _ => ([], 0) }

/-- A sample tree.  The root is block 1, an internal node that sends key `[4]` to the leaf 2
and every other key to block 3; block 3 is an internal node that sends every key to the
leaf 4.  Every other block is a leaf. -/
def sample_cache : cache_t :=
  { superblock := { root_block := 1 }
    block := fun id =>
      if id = 1 then
        { is_internal := true
          internal_lookup := fun key => if key = [4] then 2 else 3
          leaf_lookup := fun _ => none }
      else if id = 3 then
        { is_internal := true
          internal_lookup := fun _ => 4
          leaf_lookup := fun _ => none }
      else sample_leaf
    large_value := sample_large_value }

/-- The heights of the subtrees of the sample tree. -/
def sample_height (id : block_id_t) : Nat :=
  if id = 1 then 2 else if id = 3 then 1 else 0

/-- The sample tree on a slice owned by thread 3. -/
def sample_slice : btree_slice_t := { cache := sample_cache, home_thread := 3 }

/-- A slice owned by thread 3 whose tree is empty. -/
def empty_slice : btree_slice_t :=
  { cache := { sample_cache with superblock := { root_block := NULL_BLOCK_ID } }, home_thread := 3 }

/-- A slice owned by thread 3 whose root is an internal node that sends every key to
`NULL_BLOCK_ID`. -/
def corrupt_slice : btree_slice_t :=
  { cache :=
      { superblock := { root_block := 1 }
        block := fun _ =>
          { is_internal := true
            internal_lookup := fun _ => NULL_BLOCK_ID
            leaf_lookup := fun _ => none }
        large_value := sample_large_value }
    home_thread := 3 }

/-! ## Lemmas on the observations -/

@[simp] theorem delivered_nil : delivered [] = [] := rfl

@[simp] theorem delivered_cons (e : event_t) (tr : List event_t) :
    delivered (e :: tr) = (match e.op with
      | .deliver res => [res]
      | _ => []) ++ delivered tr := by
  cases e with
  | mk th o => cases o <;> simp [delivered]

@[simp] theorem delivered_append (a b : List event_t) :
    delivered (a ++ b) = delivered a ++ delivered b := by
  simp [delivered]

@[simp] theorem acquired_nil : acquired [] = [] := rfl

@[simp] theorem acquired_cons (e : event_t) (tr : List event_t) :
    acquired (e :: tr) = (match e.op with
      | .buf_lock_acquire id _ => [id]
      | _ => []) ++ acquired tr := by
  cases e with
  | mk th o => cases o <;> simp [acquired]

@[simp] theorem acquired_append (a b : List event_t) :
    acquired (a ++ b) = acquired a ++ acquired b := by
  simp [acquired]

@[simp] theorem released_nil : released [] = [] := rfl

@[simp] theorem released_cons (e : event_t) (tr : List event_t) :
    released (e :: tr) = (match e.op with
      | .buf_lock_release id => [id]
      | _ => []) ++ released tr := by
  cases e with
  | mk th o => cases o <;> simp [released]

@[simp] theorem released_append (a b : List event_t) :
    released (a ++ b) = released a ++ released b := by
  simp [released]

@[simp] theorem sweeps_nil : sweeps [] = [] := rfl

@[simp] theorem sweeps_cons (e : event_t) (tr : List event_t) :
    sweeps (e :: tr) = (match e.op with
      | .delete_expired key => [key]
      | _ => []) ++ sweeps tr := by
  cases e with
  | mk th o => cases o <;> simp [sweeps]

@[simp] theorem sweeps_append (a b : List event_t) : sweeps (a ++ b) = sweeps a ++ sweeps b := by
  simp [sweeps]

@[simp] theorem large_loads_nil : large_loads [] = [] := rfl

@[simp] theorem large_loads_cons (e : event_t) (tr : List event_t) :
    large_loads (e :: tr) = (match e.op with
      | .large_acquire lb_ref _ => [lb_ref]
      | _ => []) ++ large_loads tr := by
  cases e with
  | mk th o => cases o <;> simp [large_loads]

@[simp] theorem large_loads_append (a b : List event_t) :
    large_loads (a ++ b) = large_loads a ++ large_loads b := by
  simp [large_loads]

@[simp] theorem commits_nil : commits [] = 0 := rfl

@[simp] theorem commits_cons (e : event_t) (tr : List event_t) :
    commits (e :: tr) = commits tr + (if e.op = .commit then 1 else 0) := by
  simp [commits, List.countP_cons]

@[simp] theorem commits_append (a b : List event_t) : commits (a ++ b) = commits a + commits b := by
  simp [commits]

@[simp] theorem milestones_nil : milestones [] = [] := rfl

@[simp] theorem milestones_cons (e : event_t) (tr : List event_t) :
    milestones (e :: tr) = (match e.op with
      | .deliver _ => [e]
      | .large_release _ => [e]
      | .commit => [e]
      | _ => []) ++ milestones tr := by
  cases e with
  | mk th o => cases o <;> simp [milestones]

@[simp] theorem milestones_append (a b : List event_t) :
    milestones (a ++ b) = milestones a ++ milestones b := by
  simp [milestones]

@[simp] theorem locks_after_nil (held : List block_id_t) : locks_after held [] = held := rfl

@[simp] theorem locks_after_cons (held : List block_id_t) (e : event_t) (tr : List event_t) :
    locks_after held (e :: tr) = locks_after (lock_step held e) tr := rfl

@[simp] theorem locks_after_append (held : List block_id_t) (a b : List event_t) :
    locks_after held (a ++ b) = locks_after (locks_after held a) b := by
  simp [locks_after]

@[simp] theorem disciplined_nil (held : List block_id_t) : disciplined held [] = true := rfl

@[simp] theorem disciplined_cons (held : List block_id_t) (e : event_t) (tr : List event_t) :
    disciplined held (e :: tr) = (step_ok held e && disciplined (lock_step held e) tr) := rfl

theorem disciplined_append (held : List block_id_t) (a b : List event_t) :
    disciplined held (a ++ b) = (disciplined held a && disciplined (locks_after held a) b) := by
  induction a generalizing held with
  | nil => simp
  | cons e a ih => simp [ih, Bool.and_assoc]

/-! ## Lemmas on the descent loop -/

theorem descend_eq (N : Bool) (cache : cache_t) (key : btree_key) :
    ∀ (fuel : Nat) (c : coro_t) (held node_id : block_id_t),
      descend N cache key fuel c held node_id =
        ({ thread := c.thread, trace := c.trace ++ dtrace N cache key fuel c.thread held node_id },
          dheld N cache key fuel c.thread held node_id,
          dexit N cache key fuel c.thread held node_id) := by
  intro fuel
  induction fuel with
  | zero => intro c held node_id; simp [descend, dtrace, dheld, dexit]
  | succ fuel ih =>
    intro c held node_id
    unfold dtrace dheld dexit
    simp only [descend, coro_t.emit, rassert]
    cases N <;> cases hi : (cache.block node_id).is_internal <;> simp
    all_goals
      split_ifs
      all_goals first
        | simp
        | (rw [ih]; conv_rhs => rw [ih]
           simp [dtrace, dheld, dexit])

theorem dtrace_zero (N : Bool) (cache : cache_t) (key : btree_key) (th : Nat)
    (held node_id : block_id_t) : dtrace N cache key 0 th held node_id = [] := by
  simp [dtrace, descend]

theorem dheld_zero (N : Bool) (cache : cache_t) (key : btree_key) (th : Nat)
    (held node_id : block_id_t) : dheld N cache key 0 th held node_id = held := by
  simp [dheld, descend]

theorem dexit_zero (N : Bool) (cache : cache_t) (key : btree_key) (th : Nat)
    (held node_id : block_id_t) : dexit N cache key 0 th held node_id = .out_of_fuel := by
  simp [dexit, descend]

theorem valid_child_iff (id : block_id_t) :
    valid_child id = true ↔ id ≠ NULL_BLOCK_ID ∧ id ≠ SUPERBLOCK_ID := by
  simp [valid_child]

theorem dtrace_succ (N : Bool) (cache : cache_t) (key : btree_key) (fuel th : Nat)
    (held node_id : block_id_t) :
    dtrace N cache key (fuel + 1) th held node_id =
      [{ thread := th, op := .buf_lock_acquire node_id .rwi_read },
        { thread := th, op := .buf_lock_release held }] ++
      (if N then [] else [{ thread := th, op := .get_data_read node_id .validate }]) ++
      [{ thread := th, op := .get_data_read node_id .is_internal }] ++
      (if (cache.block node_id).is_internal then
        { thread := th, op := .get_data_read node_id .internal_lookup } ::
          (if valid_child ((cache.block node_id).internal_lookup key) then
            dtrace N cache key fuel th node_id ((cache.block node_id).internal_lookup key)
          else [])
      else []) := by
  conv_lhs => unfold dtrace
  simp only [descend, coro_t.emit, rassert]
  cases N <;> cases hi : (cache.block node_id).is_internal <;> simp
  all_goals
    by_cases hv : valid_child ((cache.block node_id).internal_lookup key) = true
    · have hv2 := (valid_child_iff _).1 hv
      simp [hv, hv2.1, hv2.2]
      rw [descend_eq]
      simp
    · simp [hv]
      have hv3 : ¬ ((cache.block node_id).internal_lookup key ≠ NULL_BLOCK_ID ∧
          (cache.block node_id).internal_lookup key ≠ SUPERBLOCK_ID) :=
        fun h => hv ((valid_child_iff _).2 h)
      split_ifs <;> first | rfl | (exfalso; apply hv3; constructor <;> assumption)

theorem dheld_succ (N : Bool) (cache : cache_t) (key : btree_key) (fuel th : Nat)
    (held node_id : block_id_t) :
    dheld N cache key (fuel + 1) th held node_id =
      if (cache.block node_id).is_internal &&
          valid_child ((cache.block node_id).internal_lookup key) then
        dheld N cache key fuel th node_id ((cache.block node_id).internal_lookup key)
      else node_id := by
  conv_lhs => unfold dheld
  simp only [descend, coro_t.emit, rassert]
  cases N <;> cases hi : (cache.block node_id).is_internal <;> simp
  all_goals
    by_cases hv : valid_child ((cache.block node_id).internal_lookup key) = true
    · have hv2 := (valid_child_iff _).1 hv
      simp [hv, hv2.1, hv2.2]
      rw [descend_eq]
    · simp [hv]
      have hv3 : ¬ ((cache.block node_id).internal_lookup key ≠ NULL_BLOCK_ID ∧
          (cache.block node_id).internal_lookup key ≠ SUPERBLOCK_ID) :=
        fun h => hv ((valid_child_iff _).2 h)
      split_ifs <;> first | rfl | (exfalso; apply hv3; constructor <;> assumption)

theorem dexit_succ (N : Bool) (cache : cache_t) (key : btree_key) (fuel th : Nat)
    (held node_id : block_id_t) :
    dexit N cache key (fuel + 1) th held node_id =
      if (cache.block node_id).is_internal then
        if valid_child ((cache.block node_id).internal_lookup key) then
          dexit N cache key fuel th node_id ((cache.block node_id).internal_lookup key)
        else .rassert_failed
      else .returned := by
  conv_lhs => unfold dexit
  simp only [descend, coro_t.emit, rassert]
  cases N <;> cases hi : (cache.block node_id).is_internal <;> simp
  all_goals
    by_cases hv : valid_child ((cache.block node_id).internal_lookup key) = true
    · have hv2 := (valid_child_iff _).1 hv
      simp [hv, hv2.1, hv2.2]
      rw [descend_eq]
    · simp [hv]
      have hv3 : ¬ ((cache.block node_id).internal_lookup key ≠ NULL_BLOCK_ID ∧
          (cache.block node_id).internal_lookup key ≠ SUPERBLOCK_ID) :=
        fun h => hv ((valid_child_iff _).2 h)
      split_ifs <;> first | rfl | (exfalso; apply hv3; constructor <;> assumption)

/-- Every run of `co_btree_get` takes one of eight paths, each with an explicit trace. -/
theorem co_btree_get_paths (N : Bool) (fuel now : Nat) (key : btree_key) (slice : btree_slice_t)
    (caller : Nat) :
    (slice.cache.superblock.root_block = SUPERBLOCK_ID ∧
      co_btree_get N fuel now key slice caller =
        ({ thread := slice.home_thread, trace := prologue slice.home_thread caller },
          .rassert_failed)) ∨
    (slice.cache.superblock.root_block ≠ SUPERBLOCK_ID ∧
      slice.cache.superblock.root_block = NULL_BLOCK_ID ∧
      co_btree_get N fuel now key slice caller =
        ({ thread := caller,
           trace := prologue slice.home_thread caller ++
            { thread := slice.home_thread, op := .buf_lock_release SUPERBLOCK_ID } ::
              answer_events slice.home_thread caller NotFound },
          .returned)) ∨
    (slice.cache.superblock.root_block ≠ SUPERBLOCK_ID ∧
      slice.cache.superblock.root_block ≠ NULL_BLOCK_ID ∧
      dexit N slice.cache key fuel slice.home_thread SUPERBLOCK_ID
              slice.cache.superblock.root_block ≠ .returned ∧
      co_btree_get N fuel now key slice caller =
        ({ thread := slice.home_thread,
           trace := prologue slice.home_thread caller ++
            dtrace N slice.cache key fuel slice.home_thread SUPERBLOCK_ID
              slice.cache.superblock.root_block },
          dexit N slice.cache key fuel slice.home_thread SUPERBLOCK_ID
              slice.cache.superblock.root_block)) ∨
    (slice.cache.superblock.root_block ≠ SUPERBLOCK_ID ∧
      slice.cache.superblock.root_block ≠ NULL_BLOCK_ID ∧
      dexit N slice.cache key fuel slice.home_thread SUPERBLOCK_ID
              slice.cache.superblock.root_block = .returned ∧
      ∃ leaf_id tr,
        leaf_id = dheld N slice.cache key fuel slice.home_thread SUPERBLOCK_ID
              slice.cache.superblock.root_block ∧
        tr = prologue slice.home_thread caller ++
          dtrace N slice.cache key fuel slice.home_thread SUPERBLOCK_ID
              slice.cache.superblock.root_block ++
          leaf_events slice.home_thread leaf_id ∧
        (((slice.cache.block leaf_id).leaf_lookup key = none ∧
        co_btree_get N fuel now key slice caller =
          ({ thread := caller,
             trace := tr ++
               answer_events slice.home_thread caller NotFound },
            .returned)) ∨
        (∃ v, (slice.cache.block leaf_id).leaf_lookup key = some v ∧ v.expired now = true ∧
        co_btree_get N fuel now key slice caller =
          ({ thread := caller,
             trace := tr ++
               { thread := slice.home_thread, op := .delete_expired key }
                 :: answer_events slice.home_thread caller NotFound },
            .returned)) ∨
        (∃ v, (slice.cache.block leaf_id).leaf_lookup key = some v ∧
          v.expired now = false ∧ v.is_large = false ∧
        co_btree_get N fuel now key slice caller =
          ({ thread := caller,
             trace := tr ++
               answer_events slice.home_thread caller
                 (Found [{ size := v.value_size, data := v.value }] v.mcflags) },
            .returned)) ∨
        (∃ v, (slice.cache.block leaf_id).leaf_lookup key = some v ∧
          v.expired now = false ∧ v.is_large = true ∧
        (co_acquire_large_value slice.cache v.lb_ref).state ≠ .loaded ∧
        co_btree_get N fuel now key slice caller =
          ({ thread := slice.home_thread,
             trace := tr ++
               [{ thread := slice.home_thread, op := .large_acquire v.lb_ref .rwi_read }] },
            .rassert_failed)) ∨
        (∃ v, (slice.cache.block leaf_id).leaf_lookup key = some v ∧
          v.expired now = false ∧ v.is_large = true ∧
        (co_acquire_large_value slice.cache v.lb_ref).state = .loaded ∧
        co_btree_get N fuel now key slice caller =
          ({ thread := caller,
             trace := tr ++
               large_found_events slice.home_thread caller v.lb_ref
                 (Found (collect_segments (co_acquire_large_value slice.cache v.lb_ref))
                   v.mcflags) },
            .returned)))) := by
  by_cases h1 : slice.cache.superblock.root_block = SUPERBLOCK_ID
  · left
    refine ⟨h1, ?_⟩
    simp [co_btree_get, h1, coro_t.emit, coro_t.move_to_thread, prologue, rassert]
  right
  by_cases h2 : slice.cache.superblock.root_block = NULL_BLOCK_ID
  · left
    refine ⟨h1, h2, ?_⟩
    have h3 : ¬ NULL_BLOCK_ID = SUPERBLOCK_ID := by decide
    simp [co_btree_get, h2, h3, coro_t.emit, coro_t.move_to_thread, prologue, answer_events,
      rassert, co_deliver_get_result, NotFound]
  right
  simp only [co_btree_get, h1, h2, coro_t.emit, coro_t.move_to_thread, rassert, ne_eq,
    not_false_eq_true, decide_True, Bool.not_true, Bool.false_eq_true, if_false]
  rw [descend_eq]
  cases hex : dexit N slice.cache key fuel slice.home_thread SUPERBLOCK_ID
              slice.cache.superblock.root_block with
  | rassert_failed => left; simp [h1, h2, prologue]
  | out_of_fuel => left; simp [h1, h2, prologue]
  | returned =>
    right
    refine ⟨by first | exact h1 | trivial, by first | exact h2 | trivial, rfl, _, _, rfl, rfl,
      ?_⟩
    simp only []
    cases hl : (slice.cache.block (dheld N slice.cache key fuel slice.home_thread SUPERBLOCK_ID
              slice.cache.superblock.root_block)).leaf_lookup key with
    | none =>
      left
      simp [prologue, leaf_events, answer_events, co_deliver_get_result, coro_t.emit, NotFound]
    | some v =>
      right
      cases he : v.expired now with
      | true =>
        left
        simp [prologue, leaf_events, answer_events, co_deliver_get_result,
          btree_delete_expired, coro_t.emit, NotFound, he]
      | false =>
        right
        cases hc : v.is_large with
        | false =>
          left
          simp [prologue, leaf_events, answer_events, add_buffer, co_deliver_get_result,
            coro_t.emit, Found, he, hc]
        | true =>
          right
          by_cases hs : (co_acquire_large_value slice.cache v.lb_ref).state = .loaded
          · right
            simp [prologue, leaf_events, large_found_events, hs, co_deliver_get_result,
              on_thread_t.enter, on_thread_t.leave, coro_t.emit, coro_t.move_to_thread,
              Found, he, hc]
            simp [co_acquire_large_value]
          · left
            simp [prologue, leaf_events, hs, coro_t.emit, he, hc]

/-! ## Facts about the descent loop -/

theorem dtrace_quiet (N : Bool) (cache : cache_t) (key : btree_key) (th : Nat) :
    ∀ (fuel : Nat) (held node_id : block_id_t),
      delivered (dtrace N cache key fuel th held node_id) = [] ∧
      sweeps (dtrace N cache key fuel th held node_id) = [] ∧
      large_loads (dtrace N cache key fuel th held node_id) = [] ∧
      commits (dtrace N cache key fuel th held node_id) = 0 ∧
      milestones (dtrace N cache key fuel th held node_id) = [] := by
  intro fuel
  induction fuel with
  | zero => intro held node_id; simp [dtrace_zero]
  | succ fuel ih =>
    intro held node_id
    rw [dtrace_succ]
    have h := ih node_id ((cache.block node_id).internal_lookup key)
    cases N <;> cases (cache.block node_id).is_internal <;>
      cases valid_child ((cache.block node_id).internal_lookup key) <;> simp [h]

theorem dtrace_threads (N : Bool) (cache : cache_t) (key : btree_key) (th : Nat) :
    ∀ (fuel : Nat) (held node_id : block_id_t),
      ∀ e ∈ dtrace N cache key fuel th held node_id,
        e.thread = th ∧ is_cache_op e.op = true := by
  intro fuel
  induction fuel with
  | zero => intro held node_id; simp [dtrace_zero]
  | succ fuel ih =>
    intro held node_id
    rw [dtrace_succ]
    have h := ih node_id ((cache.block node_id).internal_lookup key)
    cases N <;> cases (cache.block node_id).is_internal <;>
      cases valid_child ((cache.block node_id).internal_lookup key) <;>
      simp [is_cache_op] <;> exact h

theorem erase_handoff (child parent : block_id_t) :
    [child, parent].erase parent = [child] := by
  by_cases h : child = parent
  · subst h; simp
  · simp [List.erase_cons, h]

theorem dtrace_locks (N : Bool) (cache : cache_t) (key : btree_key) (th : Nat) :
    ∀ (fuel : Nat) (held node_id : block_id_t),
      disciplined [held] (dtrace N cache key fuel th held node_id) = true ∧
      locks_after [held] (dtrace N cache key fuel th held node_id) =
        [dheld N cache key fuel th held node_id] := by
  intro fuel
  induction fuel with
  | zero => intro held node_id; simp [dtrace_zero, dheld_zero]
  | succ fuel ih =>
    intro held node_id
    rw [dtrace_succ, dheld_succ]
    have h := ih node_id ((cache.block node_id).internal_lookup key)
    cases N <;> cases (cache.block node_id).is_internal <;>
      cases valid_child ((cache.block node_id).internal_lookup key) <;>
      simp [step_ok, lock_step, erase_handoff, h, disciplined_append]

theorem dtrace_released (N : Bool) (cache : cache_t) (key : btree_key) (th : Nat) :
    ∀ (fuel : Nat) (held node_id : block_id_t),
      released (dtrace N cache key fuel th held node_id) ++
          [dheld N cache key fuel th held node_id] =
        held :: acquired (dtrace N cache key fuel th held node_id) := by
  intro fuel
  induction fuel with
  | zero => intro held node_id; simp [dtrace_zero, dheld_zero]
  | succ fuel ih =>
    intro held node_id
    rw [dtrace_succ, dheld_succ]
    have h := ih node_id ((cache.block node_id).internal_lookup key)
    cases N <;> cases (cache.block node_id).is_internal <;>
      cases valid_child ((cache.block node_id).internal_lookup key) <;>
      simp [h]

theorem descend_follow (N : Bool) (cache : cache_t) (key : btree_key) (th : Nat)
    (leaf_id : block_id_t) (hleaf : (cache.block leaf_id).is_internal = false) :
    ∀ (d fuel : Nat) (held node_id : block_id_t),
      follow cache key d node_id = some leaf_id → d < fuel →
      dexit N cache key fuel th held node_id = .returned ∧
      dheld N cache key fuel th held node_id = leaf_id ∧
      acquired (dtrace N cache key fuel th held node_id) = visited cache key d node_id := by
  intro d
  induction d with
  | zero =>
    intro fuel held node_id hf hlt
    obtain ⟨fuel, rfl⟩ : ∃ f, fuel = f + 1 := ⟨fuel - 1, by omega⟩
    simp only [follow, Option.some.injEq] at hf
    subst hf
    rw [dexit_succ, dheld_succ, dtrace_succ]
    cases N <;> simp [hleaf, visited]
  | succ d ih =>
    intro fuel held node_id hf hlt
    obtain ⟨fuel, rfl⟩ : ∃ f, fuel = f + 1 := ⟨fuel - 1, by omega⟩
    simp only [follow] at hf
    split_ifs at hf with hc
    simp only [Bool.and_eq_true] at hc
    have h := ih fuel node_id _ hf (by omega)
    rw [dexit_succ, dheld_succ, dtrace_succ]
    cases N <;> simp [hc.1, hc.2, visited, h]

theorem descend_returned (N : Bool) (cache : cache_t) (key : btree_key) (th : Nat) :
    ∀ (fuel : Nat) (held node_id : block_id_t),
      dexit N cache key fuel th held node_id = .returned →
      ∃ d, d < fuel ∧
        follow cache key d node_id = some (dheld N cache key fuel th held node_id) ∧
        (cache.block (dheld N cache key fuel th held node_id)).is_internal = false := by
  intro fuel
  induction fuel with
  | zero => intro held node_id h; simp [dexit_zero] at h
  | succ fuel ih =>
    intro held node_id h
    rw [dexit_succ] at h
    rw [dheld_succ]
    cases hi : (cache.block node_id).is_internal with
    | false => exact ⟨0, by omega, by simp [follow, hi], by simp [hi]⟩
    | true =>
      cases hv : valid_child ((cache.block node_id).internal_lookup key) with
      | false => simp [hi, hv] at h
      | true =>
        simp only [hi, hv, if_true] at h
        obtain ⟨d, hd, hf, hl⟩ := ih node_id _ h
        exact ⟨d + 1, by omega, by simp [follow, hi, hv, hf], by simpa [hi, hv] using hl⟩

theorem getLast?_cons_of_some {α : Type} {l : List α} {x : α} (e : α)
    (h : l.getLast? = some x) : (e :: l).getLast? = some x := by
  cases l with
  | nil => simp at h
  | cons a l => rw [List.getLast?_cons_cons]; exact h

theorem descend_fatal (N : Bool) (cache : cache_t) (key : btree_key) (th : Nat)
    (n : block_id_t) (hint : (cache.block n).is_internal = true)
    (hbad : valid_child ((cache.block n).internal_lookup key) = false) :
    ∀ (k fuel : Nat) (held node_id : block_id_t),
      follow cache key k node_id = some n → k < fuel →
      dexit N cache key fuel th held node_id = .rassert_failed ∧
      dheld N cache key fuel th held node_id = n ∧
      acquired (dtrace N cache key fuel th held node_id) = visited cache key k node_id ∧
      (dtrace N cache key fuel th held node_id).getLast? =
        some { thread := th, op := .get_data_read n .internal_lookup } := by
  intro k
  induction k with
  | zero =>
    intro fuel held node_id hf hlt
    obtain ⟨fuel, rfl⟩ : ∃ f, fuel = f + 1 := ⟨fuel - 1, by omega⟩
    simp only [follow, Option.some.injEq] at hf
    subst hf
    rw [dexit_succ, dheld_succ, dtrace_succ]
    cases N <;> simp [hint, hbad, visited]
  | succ k ih =>
    intro fuel held node_id hf hlt
    obtain ⟨fuel, rfl⟩ : ∃ f, fuel = f + 1 := ⟨fuel - 1, by omega⟩
    simp only [follow] at hf
    split_ifs at hf with hc
    simp only [Bool.and_eq_true] at hc
    have h := ih fuel node_id _ hf (by omega)
    rw [dexit_succ, dheld_succ, dtrace_succ]
    refine ⟨by simp [hc.1, hc.2, h], by simp [hc.1, hc.2, h], ?_, ?_⟩
    · cases N <;> simp [hc.1, hc.2, visited, h]
    · cases N <;>
        simp only [hc.1, hc.2, if_true, List.append_assoc, List.cons_append, List.nil_append,
          Bool.false_eq_true, if_false] <;>
        repeat (first | exact h.2.2.2 | apply getLast?_cons_of_some)

/-! ## Lookups that reach a leaf -/

/-- A lookup whose descent reaches the leaf `leaf_id` takes one of the five paths through the
examination of that leaf. -/
theorem co_btree_get_at_leaf (N : Bool) (fuel now : Nat) (key : btree_key)
    (slice : btree_slice_t) (caller d : Nat) (leaf_id : block_id_t)
    (h1 : slice.cache.superblock.root_block ≠ SUPERBLOCK_ID)
    (h2 : slice.cache.superblock.root_block ≠ NULL_BLOCK_ID)
    (hf : follow slice.cache key d slice.cache.superblock.root_block = some leaf_id)
    (hl : (slice.cache.block leaf_id).is_internal = false) (hlt : d < fuel) :
    ∃ dt tr,
      acquired dt = visited slice.cache key d slice.cache.superblock.root_block ∧
      released dt ++ [leaf_id] = SUPERBLOCK_ID :: acquired dt ∧
      (delivered dt = [] ∧ sweeps dt = [] ∧ large_loads dt = [] ∧ commits dt = 0 ∧
        milestones dt = []) ∧
      tr = prologue slice.home_thread caller ++ dt ++ leaf_events slice.home_thread leaf_id ∧
      (((slice.cache.block leaf_id).leaf_lookup key = none ∧
      co_btree_get N fuel now key slice caller =
        ({ thread := caller,
           trace := tr ++
             answer_events slice.home_thread caller NotFound },
          .returned)) ∨
      (∃ v, (slice.cache.block leaf_id).leaf_lookup key = some v ∧ v.expired now = true ∧
      co_btree_get N fuel now key slice caller =
        ({ thread := caller,
           trace := tr ++
             { thread := slice.home_thread, op := .delete_expired key }
               :: answer_events slice.home_thread caller NotFound },
          .returned)) ∨
      (∃ v, (slice.cache.block leaf_id).leaf_lookup key = some v ∧
        v.expired now = false ∧ v.is_large = false ∧
      co_btree_get N fuel now key slice caller =
        ({ thread := caller,
           trace := tr ++
             answer_events slice.home_thread caller
               (Found [{ size := v.value_size, data := v.value }] v.mcflags) },
          .returned)) ∨
      (∃ v, (slice.cache.block leaf_id).leaf_lookup key = some v ∧
        v.expired now = false ∧ v.is_large = true ∧
      (co_acquire_large_value slice.cache v.lb_ref).state ≠ .loaded ∧
      co_btree_get N fuel now key slice caller =
        ({ thread := slice.home_thread,
           trace := tr ++
             [{ thread := slice.home_thread, op := .large_acquire v.lb_ref .rwi_read }] },
          .rassert_failed)) ∨
      (∃ v, (slice.cache.block leaf_id).leaf_lookup key = some v ∧
        v.expired now = false ∧ v.is_large = true ∧
      (co_acquire_large_value slice.cache v.lb_ref).state = .loaded ∧
      co_btree_get N fuel now key slice caller =
        ({ thread := caller,
           trace := tr ++
             large_found_events slice.home_thread caller v.lb_ref
               (Found (collect_segments (co_acquire_large_value slice.cache v.lb_ref)) v.mcflags) },
          .returned))) := by
  obtain ⟨hex, hh, hacq⟩ := descend_follow N slice.cache key slice.home_thread leaf_id hl d fuel
    SUPERBLOCK_ID slice.cache.superblock.root_block hf hlt
  have hrel := dtrace_released N slice.cache key slice.home_thread fuel SUPERBLOCK_ID
    slice.cache.superblock.root_block
  have hq := dtrace_quiet N slice.cache key slice.home_thread fuel SUPERBLOCK_ID
    slice.cache.superblock.root_block
  rw [hh] at hrel
  rcases co_btree_get_paths N fuel now key slice caller with
    ⟨h, _⟩ | ⟨_, h, _⟩ | ⟨_, _, h, _⟩ | ⟨_, _, _, lf, tr, hlf, htr, hcases⟩
  · exact absurd h h1
  · exact absurd h h2
  · exact absurd hex h
  · rw [hh] at hlf
    subst hlf
    exact ⟨_, tr, hacq, hrel, hq, htr, hcases⟩

/-- The same, with one statement for each of the five paths. -/
theorem co_btree_get_leaf_paths (N : Bool) (fuel now : Nat) (key : btree_key)
    (slice : btree_slice_t) (caller d : Nat) (leaf_id : block_id_t)
    (h1 : slice.cache.superblock.root_block ≠ SUPERBLOCK_ID)
    (h2 : slice.cache.superblock.root_block ≠ NULL_BLOCK_ID)
    (hf : follow slice.cache key d slice.cache.superblock.root_block = some leaf_id)
    (hl : (slice.cache.block leaf_id).is_internal = false) (hlt : d < fuel) :
    ∃ dt tr,
      acquired dt = visited slice.cache key d slice.cache.superblock.root_block ∧
      released dt ++ [leaf_id] = SUPERBLOCK_ID :: acquired dt ∧
      (delivered dt = [] ∧ sweeps dt = [] ∧ large_loads dt = [] ∧ commits dt = 0 ∧
        milestones dt = []) ∧
      tr = prologue slice.home_thread caller ++ dt ++ leaf_events slice.home_thread leaf_id ∧
      ((slice.cache.block leaf_id).leaf_lookup key = none →
      co_btree_get N fuel now key slice caller =
        ({ thread := caller,
           trace := tr ++
             answer_events slice.home_thread caller NotFound },
          .returned)) ∧
      (∀ v, (slice.cache.block leaf_id).leaf_lookup key = some v → v.expired now = true →
      co_btree_get N fuel now key slice caller =
        ({ thread := caller,
           trace := tr ++
             { thread := slice.home_thread, op := .delete_expired key }
               :: answer_events slice.home_thread caller NotFound },
          .returned)) ∧
      (∀ v, (slice.cache.block leaf_id).leaf_lookup key = some v →
        v.expired now = false → v.is_large = false →
      co_btree_get N fuel now key slice caller =
        ({ thread := caller,
           trace := tr ++
             answer_events slice.home_thread caller
               (Found [{ size := v.value_size, data := v.value }] v.mcflags) },
          .returned)) ∧
      (∀ v, (slice.cache.block leaf_id).leaf_lookup key = some v →
        v.expired now = false → v.is_large = true →
      (co_acquire_large_value slice.cache v.lb_ref).state ≠ .loaded →
      co_btree_get N fuel now key slice caller =
        ({ thread := slice.home_thread,
           trace := tr ++
             [{ thread := slice.home_thread, op := .large_acquire v.lb_ref .rwi_read }] },
          .rassert_failed)) ∧
      (∀ v, (slice.cache.block leaf_id).leaf_lookup key = some v →
        v.expired now = false → v.is_large = true →
      (co_acquire_large_value slice.cache v.lb_ref).state = .loaded →
      co_btree_get N fuel now key slice caller =
        ({ thread := caller,
           trace := tr ++
             large_found_events slice.home_thread caller v.lb_ref
               (Found (collect_segments (co_acquire_large_value slice.cache v.lb_ref)) v.mcflags) },
          .returned)) := by
  obtain ⟨dt, tr, hacq, hrel, hq, htr, hcases⟩ :=
    co_btree_get_at_leaf N fuel now key slice caller d leaf_id h1 h2 hf hl hlt
  refine ⟨dt, tr, hacq, hrel, hq, htr, ?_⟩
  rcases hcases with ⟨hn, hr⟩ | ⟨w, hw, he, hr⟩ | ⟨w, hw, he, hc, hr⟩ |
    ⟨w, hw, he, hc, hst, hr⟩ | ⟨w, hw, he, hc, hst, hr⟩ <;>
  refine ⟨?_, ?_, ?_, ?_, ?_⟩ <;> intros <;> simp_all

/-! ## The loop over the segments -/

theorem foldl_add_buffer (f : Nat → buffer_t) (l : List Nat) (init : const_buffer_group_t) :
    l.foldl (fun g i => add_buffer g (f i).size (f i).data) init = init ++ l.map f := by
  induction l generalizing init with
  | nil => simp
  | cons a l ih =>
    simp only [List.foldl_cons, List.map_cons]
    rw [ih]
    simp [add_buffer]

theorem collect_segments_eq (lv : large_buf_t) :
    collect_segments lv =
      (List.range lv.get_num_segments).map
        (fun i => { size := (lv.get_segment i).2, data := (lv.get_segment i).1 }) := by
  unfold collect_segments
  exact (foldl_add_buffer
    (fun i => { size := (lv.get_segment i).2, data := (lv.get_segment i).1 }) _ []).trans
    (by simp)

/-! ## The locking discipline -/

theorem discipline_invariant (pre : List event_t) :
    disciplined [] pre = true →
    (locks_held pre).length ≤ 2 ∧
    ((locks_held pre).length = 2 →
      ∃ pre' a child mode parent, pre = pre' ++ [a] ∧ a.op = .buf_lock_acquire child mode ∧
        locks_held pre' = [parent] ∧ locks_held pre = [child, parent]) := by
  induction pre using List.reverseRecOn with
  | nil => intro _; simp [locks_held]
  | append_singleton pre e ih =>
    intro hd
    rw [disciplined_append] at hd
    simp only [Bool.and_eq_true, disciplined_cons, disciplined_nil, Bool.and_true] at hd
    obtain ⟨hlen, _⟩ := ih hd.1
    have hstep : locks_held (pre ++ [e]) = lock_step (locks_held pre) e := by simp [locks_held]
    have hok : step_ok (locks_held pre) e = true := hd.2
    rw [hstep]
    rcases e with ⟨th, o⟩
    cases o with
    | buf_lock_acquire id mode =>
      simp only [step_ok, lock_step, decide_eq_true_eq] at hok ⊢
      refine ⟨by simp only [List.length_cons]; omega, fun h2 => ?_⟩
      have h1 : (locks_held pre).length = 1 := by
        simp only [List.length_cons] at h2; omega
      obtain ⟨parent, hp⟩ := List.length_eq_one.1 h1
      exact ⟨pre, _, id, mode, parent, rfl, rfl, hp, by rw [hp]⟩
    | buf_lock_release id =>
      simp only [step_ok, lock_step, decide_eq_true_eq] at hok ⊢
      have hmem : id ∈ locks_held pre := List.mem_of_mem_getLast? hok
      have hlen2 := List.length_erase_of_mem hmem
      refine ⟨by omega, fun h2 => ?_⟩
      omega
    | get_data_read id use =>
      simp only [step_ok, lock_step, decide_eq_true_eq] at hok ⊢
      refine ⟨hlen, fun h2 => ?_⟩
      rw [hok] at h2; simp at h2
    | move_to_thread t =>
      simp only [step_ok, lock_step, decide_eq_true_eq] at hok ⊢
      refine ⟨hlen, fun h2 => ?_⟩
      rw [hok] at h2; simp at h2
    | transactor_begin mode =>
      simp only [step_ok, lock_step, decide_eq_true_eq] at hok ⊢
      exact ⟨hlen, fun h2 => by omega⟩
    | delete_expired k =>
      simp only [step_ok, lock_step, decide_eq_true_eq] at hok ⊢
      exact ⟨hlen, fun h2 => by omega⟩
    | large_acquire r mode =>
      simp only [step_ok, lock_step, decide_eq_true_eq] at hok ⊢
      exact ⟨hlen, fun h2 => by omega⟩
    | large_release r =>
      simp only [step_ok, lock_step, decide_eq_true_eq] at hok ⊢
      exact ⟨hlen, fun h2 => by omega⟩
    | commit =>
      simp only [step_ok, lock_step, decide_eq_true_eq] at hok ⊢
      exact ⟨hlen, fun h2 => by omega⟩
    | deliver r =>
      simp only [step_ok, lock_step, decide_eq_true_eq] at hok ⊢
      exact ⟨hlen, fun h2 => by omega⟩

/-- What the locking discipline means at every point of a trace. -/
theorem discipline_split (tr : List event_t) (hd : disciplined [] tr = true)
    (hend : (locks_held tr).length ≤ 1) (pre post : List event_t) (h : tr = pre ++ post) :
    (locks_held pre).length ≤ 2 ∧
    ((locks_held pre).length = 2 →
      ∃ pre' a r post' child mode parent, pre = pre' ++ [a] ∧ post = r :: post' ∧
        a.op = .buf_lock_acquire child mode ∧ r.op = .buf_lock_release parent ∧
        locks_held pre' = [parent] ∧ locks_held pre = [child, parent]) ∧
    (∀ e post', post = e :: post' →
      (∀ id use, e.op = .get_data_read id use → locks_held pre = [id]) ∧
      (∀ t, e.op = .move_to_thread t → locks_held pre = [])) := by
  subst h
  rw [disciplined_append] at hd
  simp only [Bool.and_eq_true] at hd
  obtain ⟨hpre, hpost⟩ := hd
  obtain ⟨hlen, hinv⟩ := discipline_invariant pre hpre
  refine ⟨hlen, fun h2 => ?_, fun e post' hp => ?_⟩
  · obtain ⟨pre', a, child, mode, parent, hpre', ha, hp', hpp⟩ := hinv h2
    cases post with
    | nil => simp only [List.append_nil] at hend; omega
    | cons r post' =>
      refine ⟨pre', a, r, post', child, mode, parent, hpre', rfl, ha, ?_, hp', hpp⟩
      simp only [disciplined_cons, Bool.and_eq_true] at hpost
      have hok : step_ok (locks_held pre) r = true := hpost.1
      rw [hpp] at hok
      rcases r with ⟨th, o⟩
      cases o <;> simp [step_ok] at hok ⊢
      exact hok.symm
  · subst hp
    simp only [disciplined_cons, Bool.and_eq_true] at hpost
    have hok : step_ok (locks_held pre) e = true := hpost.1
    rcases e with ⟨th, o⟩
    refine ⟨fun id use heq => ?_, fun t heq => ?_⟩
    · simp only at heq
      subst heq
      simpa [step_ok] using hok
    · simp only at heq
      subst heq
      simpa [step_ok] using hok

/-- Every run of `co_btree_get` respects the locking discipline and ends with at most one
block lock held. -/
theorem co_btree_get_disciplined (N : Bool) (fuel now : Nat) (key : btree_key)
    (slice : btree_slice_t) (caller : Nat) :
    disciplined [] (co_btree_get N fuel now key slice caller).1.trace = true ∧
    (locks_held (co_btree_get N fuel now key slice caller).1.trace).length ≤ 1 := by
  have hlk := dtrace_locks N slice.cache key slice.home_thread fuel SUPERBLOCK_ID
    slice.cache.superblock.root_block
  rcases co_btree_get_paths N fuel now key slice caller with
    ⟨_, hr⟩ | ⟨_, _, hr⟩ | ⟨_, _, hne, hr⟩ | ⟨_, _, _, lf, tr, hlf, htr, hcases⟩
  · rw [hr]
    simp [prologue, locks_held, lock_step, step_ok]
  · rw [hr]
    simp [prologue, answer_events, locks_held, lock_step, step_ok]
  · rw [hr]
    simp [prologue, locks_held, lock_step, step_ok, disciplined_append, hlk]
  · subst hlf htr
    rcases hcases with ⟨_, hr⟩ | ⟨v, _, _, hr⟩ | ⟨v, _, _, _, hr⟩ |
      ⟨v, _, _, _, _, hr⟩ | ⟨v, _, _, _, _, hr⟩ <;>
    rw [hr] <;>
    simp [prologue, leaf_events, answer_events, large_found_events, locks_held, lock_step,
      step_ok, disciplined_append, hlk]

/-! ## Paths and heights -/

theorem follow_leaf_unique (cache : cache_t) (key : btree_key) :
    ∀ (d d' : Nat) (n l l' : block_id_t),
      follow cache key d n = some l → (cache.block l).is_internal = false →
      follow cache key d' n = some l' → (cache.block l').is_internal = false →
      d = d' ∧ l = l' := by
  intro d
  induction d with
  | zero =>
    intro d' n l l' h hl h' hl'
    simp only [follow, Option.some.injEq] at h
    subst h
    cases d' with
    | zero =>
      simp only [follow, Option.some.injEq] at h'
      exact ⟨rfl, h'⟩
    | succ d' => simp [follow, hl] at h'
  | succ d ih =>
    intro d' n l l' h hl h' hl'
    simp only [follow] at h
    split_ifs at h with hc
    simp only [Bool.and_eq_true] at hc
    cases d' with
    | zero =>
      simp only [follow, Option.some.injEq] at h'
      subst h'
      rw [hc.1] at hl'
      cases hl'
    | succ d' =>
      simp only [follow, hc.1, hc.2, Bool.and_self, if_true] at h'
      obtain ⟨h3, h4⟩ := ih d' _ l l' h hl h' hl'
      exact ⟨by omega, h4⟩

theorem follow_succ (cache : cache_t) (key : btree_key) (k : Nat) (n : block_id_t)
    (hi : (cache.block n).is_internal = true)
    (hv : valid_child ((cache.block n).internal_lookup key) = true) :
    follow cache key (k + 1) n = follow cache key k ((cache.block n).internal_lookup key) := by
  simp [follow, hi, hv]

/-- When every lookup on the way leads to a valid child of strictly smaller height, a leaf is
reached after at most as many steps as the height of the start. -/
theorem follow_reaches_leaf (cache : cache_t) (key : btree_key) (height : block_id_t → Nat) :
    ∀ (h : Nat) (n : block_id_t), height n ≤ h →
      (∀ k m, follow cache key k n = some m → (cache.block m).is_internal = true →
        valid_child ((cache.block m).internal_lookup key) = true ∧
        height ((cache.block m).internal_lookup key) < height m) →
      ∃ d leaf_id, d ≤ height n ∧ follow cache key d n = some leaf_id ∧
        (cache.block leaf_id).is_internal = false := by
  intro h
  induction h with
  | zero =>
    intro n hn hyp
    cases hi : (cache.block n).is_internal with
    | false => exact ⟨0, n, by omega, rfl, hi⟩
    | true =>
      have := (hyp 0 n rfl hi).2
      omega
  | succ h ih =>
    intro n hn hyp
    cases hi : (cache.block n).is_internal with
    | false => exact ⟨0, n, by omega, rfl, hi⟩
    | true =>
      obtain ⟨hv, hlt⟩ := hyp 0 n rfl hi
      obtain ⟨d, leaf_id, hd, hf, hl⟩ := ih ((cache.block n).internal_lookup key) (by omega)
        (fun k m hk hm => hyp (k + 1) m (by rw [follow_succ cache key k n hi hv]; exact hk) hm)
      exact ⟨d + 1, leaf_id, by omega, by rw [follow_succ cache key d n hi hv]; exact hf, hl⟩

/-- When every lookup on the way leads to a child whose height is smaller by exactly one, the
number of steps to a node is the difference of the heights. -/
theorem follow_height_exact (cache : cache_t) (key : btree_key) (height : block_id_t → Nat) :
    ∀ (d : Nat) (n l : block_id_t),
      (∀ k m, follow cache key k n = some m → (cache.block m).is_internal = true →
        height ((cache.block m).internal_lookup key) + 1 = height m) →
      follow cache key d n = some l → height l + d = height n := by
  intro d
  induction d with
  | zero =>
    intro n l _ h
    simp only [follow, Option.some.injEq] at h
    subst h
    rfl
  | succ d ih =>
    intro n l hyp h
    have h0 := h
    simp only [follow] at h
    split_ifs at h with hc
    simp only [Bool.and_eq_true] at hc
    have h1 := hyp 0 n rfl hc.1
    have h2 := ih _ l
      (fun k m hk hm => hyp (k + 1) m (by rw [follow_succ cache key k n hc.1 hc.2]; exact hk) hm)
      h
    omega

theorem visited_length (cache : cache_t) (key : btree_key) :
    ∀ (d : Nat) (n : block_id_t), (visited cache key d n).length = d + 1 := by
  intro d
  induction d with
  | zero => intro n; rfl
  | succ d ih => intro n; simp [visited, ih]

theorem visited_getLast (cache : cache_t) (key : btree_key) :
    ∀ (d : Nat) (n l : block_id_t), follow cache key d n = some l →
      (visited cache key d n).getLast? = some l := by
  intro d
  induction d with
  | zero =>
    intro n l h
    simp only [follow, Option.some.injEq] at h
    subst h
    rfl
  | succ d ih =>
    intro n l h
    simp only [follow] at h
    split_ifs at h with hc
    exact getLast?_cons_of_some n (ih _ l h)

theorem co_btree_get_acquired_at_leaf (N : Bool) (fuel now : Nat) (key : btree_key)
    (slice : btree_slice_t) (caller d : Nat) (leaf_id : block_id_t)
    (h1 : slice.cache.superblock.root_block ≠ SUPERBLOCK_ID)
    (h2 : slice.cache.superblock.root_block ≠ NULL_BLOCK_ID)
    (hf : follow slice.cache key d slice.cache.superblock.root_block = some leaf_id)
    (hl : (slice.cache.block leaf_id).is_internal = false) (hlt : d < fuel) :
    acquired (co_btree_get N fuel now key slice caller).1.trace =
      SUPERBLOCK_ID :: visited slice.cache key d slice.cache.superblock.root_block := by
  obtain ⟨dt, tr, hacq, hrel, ⟨hd, hs, hll, hcm, hm⟩, htr, hcases⟩ :=
    co_btree_get_at_leaf N fuel now key slice caller d leaf_id h1 h2 hf hl hlt
  subst htr
  rcases hcases with ⟨hn, hr⟩ | ⟨v, hv, he, hr⟩ | ⟨v, hv, he, hc, hr⟩ |
    ⟨v, hv, he, hc, hst, hr⟩ | ⟨v, hv, he, hc, hst, hr⟩ <;>
  rw [hr] <;>
  simp [prologue, leaf_events, answer_events, large_found_events, hacq]

theorem sample_heights_decrease (n : block_id_t) (key : btree_key)
    (h : (sample_slice.cache.block n).is_internal = true) :
    valid_child ((sample_slice.cache.block n).internal_lookup key) = true ∧
    sample_height ((sample_slice.cache.block n).internal_lookup key) < sample_height n := by
  by_cases h1 : n = 1
  · subst h1
    by_cases hk : key = [4] <;> simp [sample_slice, sample_cache, hk, sample_height] <;> decide
  · by_cases h3 : n = 3
    · subst h3
      simp [sample_slice, sample_cache, sample_height]
      decide
    · simp [sample_slice, sample_cache, h1, h3, sample_leaf] at h

/-! ## The claims -/

/-- C1: in a well-formed tree of any height, the lookup acquires the superblock and then the
nodes along `internal_node::lookup` from the root block down to a leaf; if `leaf::lookup` finds
a non-expired inline value in that leaf it delivers `Found` with exactly one buffer, holding
the `value_size` bytes of `value()`, and the value's `mcflags`; if `leaf::lookup` does not find
the key it delivers `NotFound`. -/
theorem C1_descent_then_leaf_lookup (N : Bool) (fuel now : Nat) (key : btree_key)
    (slice : btree_slice_t) (caller d : Nat) (leaf_id : block_id_t)
    (h1 : slice.cache.superblock.root_block ≠ SUPERBLOCK_ID)
    (h2 : slice.cache.superblock.root_block ≠ NULL_BLOCK_ID)
    (hf : follow slice.cache key d slice.cache.superblock.root_block = some leaf_id)
    (hl : (slice.cache.block leaf_id).is_internal = false) (hlt : d < fuel) :
    acquired (co_btree_get N fuel now key slice caller).1.trace =
      SUPERBLOCK_ID :: visited slice.cache key d slice.cache.superblock.root_block ∧
    (∀ v, (slice.cache.block leaf_id).leaf_lookup key = some v →
      v.is_large = false → v.expired now = false →
      (co_btree_get N fuel now key slice caller).2 = .returned ∧
      delivered (co_btree_get N fuel now key slice caller).1.trace =
        [Found [{ size := v.value_size, data := v.value }] v.mcflags]) ∧
    ((slice.cache.block leaf_id).leaf_lookup key = none →
      (co_btree_get N fuel now key slice caller).2 = .returned ∧
      delivered (co_btree_get N fuel now key slice caller).1.trace = [NotFound]) := by
  obtain ⟨dt, tr, hacq, hrel, ⟨hd, hs, hll, hcm, hm⟩, htr, pnone, pexp, pinl, pfail,
      pbig⟩ :=
    co_btree_get_leaf_paths N fuel now key slice caller d leaf_id h1 h2 hf hl hlt
  subst htr
  refine ⟨co_btree_get_acquired_at_leaf N fuel now key slice caller d leaf_id h1 h2 hf hl hlt,
    fun v hv hc he => ?_, fun hn => ?_⟩
  · rw [pinl v hv he hc]
    simp [prologue, leaf_events, answer_events, hd]
  · rw [pnone hn]
    simp [prologue, leaf_events, answer_events, hd]

/-- C1 at the sample tree: key `[1]` is found two levels below the root. -/
theorem C1_descent_then_leaf_lookup_witness :
    (sample_slice.cache.superblock.root_block ≠ SUPERBLOCK_ID ∧
      sample_slice.cache.superblock.root_block ≠ NULL_BLOCK_ID ∧
      follow sample_slice.cache [1] 2 sample_slice.cache.superblock.root_block = some 4 ∧
      (sample_slice.cache.block 4).is_internal = false ∧ 2 < 5) ∧
    acquired (co_btree_get false 5 0 [1] sample_slice 9).1.trace =
      SUPERBLOCK_ID :: visited sample_slice.cache [1] 2 sample_slice.cache.superblock.root_block ∧
    delivered (co_btree_get false 5 0 [1] sample_slice 9).1.trace =
      [Found [{ size := 2, data := [7, 8] }] 5] :=
  ⟨⟨by decide, by decide, by decide, by decide, by decide⟩,
    (C1_descent_then_leaf_lookup false 5 0 [1] sample_slice 9 2 4 (by decide) (by decide)
      (by decide) (by decide) (by decide)).1,
    ((C1_descent_then_leaf_lookup false 5 0 [1] sample_slice 9 2 4 (by decide) (by decide)
      (by decide) (by decide) (by decide)).2.1 (sample_inline [7, 8] 5 none)
        (by decide) rfl (by decide)).2⟩

/-- C2 as stated fails: key `[4]` of the sample tree is found in a leaf with expiration time
10, the lookup runs at time 5, and yet nothing is delivered, because the large buffer does
not reach the state `loaded` and the assertion on it fails. -/
theorem C2_counterexample_unloaded_large_value :
    follow sample_slice.cache [4] 1 sample_slice.cache.superblock.root_block = some 2 ∧
    (sample_slice.cache.block 2).is_internal = false ∧
    (sample_slice.cache.block 2).leaf_lookup [4] = some (sample_large 60 2 (some 10)) ∧
    (sample_large 60 2 (some 10)).exptime = some 10 ∧
    5 < 10 ∧
    (co_btree_get false 5 5 [4] sample_slice 9).2 = .rassert_failed ∧
    delivered (co_btree_get false 5 5 [4] sample_slice 9).1.trace = [] := by
  decide

/-- C2, amended: for a leaf entry found with expiration time `T`, inline or large, a lookup at
a time before `T` delivers `Found`, provided that the large buffer of a large reference
reaches the state `loaded`; a lookup at a time from `T` on delivers `NotFound` and invokes the
sweeper exactly once, for that key, without loading any large value; and when the key is
absent from the leaf or the entry is not expired the sweeper is not invoked. -/
theorem C2_expiration (N : Bool) (fuel now : Nat) (key : btree_key)
    (slice : btree_slice_t) (caller d : Nat) (leaf_id : block_id_t)
    (h1 : slice.cache.superblock.root_block ≠ SUPERBLOCK_ID)
    (h2 : slice.cache.superblock.root_block ≠ NULL_BLOCK_ID)
    (hf : follow slice.cache key d slice.cache.superblock.root_block = some leaf_id)
    (hl : (slice.cache.block leaf_id).is_internal = false) (hlt : d < fuel) :
    (∀ v T, (slice.cache.block leaf_id).leaf_lookup key = some v → v.exptime = some T →
      (now < T →
        (v.is_large = true →
          (co_acquire_large_value slice.cache v.lb_ref).state = .loaded) →
        (co_btree_get N fuel now key slice caller).2 = .returned ∧
        ∃ buffers, delivered (co_btree_get N fuel now key slice caller).1.trace =
          [Found buffers v.mcflags]) ∧
      (T ≤ now →
        (co_btree_get N fuel now key slice caller).2 = .returned ∧
        delivered (co_btree_get N fuel now key slice caller).1.trace = [NotFound] ∧
        sweeps (co_btree_get N fuel now key slice caller).1.trace = [key] ∧
        large_loads (co_btree_get N fuel now key slice caller).1.trace = [])) ∧
    (((slice.cache.block leaf_id).leaf_lookup key = none ∨
        ∃ v, (slice.cache.block leaf_id).leaf_lookup key = some v ∧ v.expired now = false) →
      sweeps (co_btree_get N fuel now key slice caller).1.trace = []) := by
  obtain ⟨dt, tr, hacq, hrel, ⟨hd, hs, hll, hcm, hm⟩, htr, pnone, pexp, pinl, pfail,
      pbig⟩ :=
    co_btree_get_leaf_paths N fuel now key slice caller d leaf_id h1 h2 hf hl hlt
  subst htr
  refine ⟨fun v T hv hT => ⟨fun hnow hload => ?_, fun hnow => ?_⟩, fun habs => ?_⟩
  · have hne : v.expired now = false := by
      simp only [btree_value.expired, hT, decide_eq_false_iff_not]
      omega
    cases hc : v.is_large with
    | false =>
      rw [pinl v hv hne hc]
      exact ⟨rfl, [{ size := v.value_size, data := v.value }],
        by simp [prologue, leaf_events, answer_events, hd]⟩
    | true =>
      rw [pbig v hv hne hc (hload hc)]
      exact ⟨rfl, collect_segments (co_acquire_large_value slice.cache v.lb_ref),
        by simp [prologue, leaf_events, large_found_events, hd]⟩
  · have hne : v.expired now = true := by
      simp only [btree_value.expired, hT, decide_eq_true_eq]
      exact hnow
    rw [pexp v hv hne]
    simp [prologue, leaf_events, answer_events, hd, hs, hll]
  · rcases habs with hn | ⟨v, hv, hne⟩
    · rw [pnone hn]
      simp [prologue, leaf_events, answer_events, hs]
    · cases hc : v.is_large with
      | false =>
        rw [pinl v hv hne hc]
        simp [prologue, leaf_events, answer_events, hs]
      | true =>
        by_cases hst : (co_acquire_large_value slice.cache v.lb_ref).state = .loaded
        · rw [pbig v hv hne hc hst]
          simp [prologue, leaf_events, large_found_events, hs]
        · rw [pfail v hv hne hc hst]
          simp [prologue, leaf_events, hs]

/-- C2 at the sample tree: key `[2]`, expiring at time 10, looked up at time 10. -/
theorem C2_expiration_witness :
    (sample_slice.cache.superblock.root_block ≠ SUPERBLOCK_ID ∧
      sample_slice.cache.superblock.root_block ≠ NULL_BLOCK_ID ∧
      follow sample_slice.cache [2] 2 sample_slice.cache.superblock.root_block = some 4 ∧
      (sample_slice.cache.block 4).is_internal = false ∧ 2 < 5) ∧
    (co_btree_get false 5 10 [2] sample_slice 9).2 = .returned ∧
    delivered (co_btree_get false 5 10 [2] sample_slice 9).1.trace = [NotFound] ∧
    sweeps (co_btree_get false 5 10 [2] sample_slice 9).1.trace = [[2]] ∧
    large_loads (co_btree_get false 5 10 [2] sample_slice 9).1.trace = [] :=
  ⟨⟨by decide, by decide, by decide, by decide, by decide⟩,
    ((C2_expiration false 5 10 [2] sample_slice 9 2 4 (by decide) (by decide) (by decide)
      (by decide) (by decide)).1 (sample_inline [9] 1 (some 10)) 10
        (by decide) rfl).2 (by decide)⟩

/-- C3: for a found, non-expired large reference whose large buffer loads with `n` segments,
the lookup delivers `Found` with exactly `n` buffers, buffer `i` having the data and the size
of segment `i`; the concatenation of the buffers is the concatenation of the segments, the
sizes add up to the same sum, and the flags are the value's `mcflags`. -/
theorem C3_large_value_buffers (N : Bool) (fuel now : Nat) (key : btree_key)
    (slice : btree_slice_t) (caller d : Nat) (leaf_id : block_id_t) (v : btree_value)
    (n : Nat)
    (h1 : slice.cache.superblock.root_block ≠ SUPERBLOCK_ID)
    (h2 : slice.cache.superblock.root_block ≠ NULL_BLOCK_ID)
    (hf : follow slice.cache key d slice.cache.superblock.root_block = some leaf_id)
    (hl : (slice.cache.block leaf_id).is_internal = false) (hlt : d < fuel)
    (hv : (slice.cache.block leaf_id).leaf_lookup key = some v)
    (hc : v.is_large = true) (he : v.expired now = false)
    (hst : (co_acquire_large_value slice.cache v.lb_ref).state = .loaded)
    (hn : (co_acquire_large_value slice.cache v.lb_ref).get_num_segments = n) :
    ∃ buffers : const_buffer_group_t,
      delivered (co_btree_get N fuel now key slice caller).1.trace =
        [Found buffers v.mcflags] ∧
      buffers.length = n ∧
      (∀ i, i < n → buffers[i]? =
        some { size := ((co_acquire_large_value slice.cache v.lb_ref).get_segment i).2,
               data := ((co_acquire_large_value slice.cache v.lb_ref).get_segment i).1 }) ∧
      (buffers.map buffer_t.data).flatten =
        ((List.range n).map fun i =>
          ((co_acquire_large_value slice.cache v.lb_ref).get_segment i).1).flatten ∧
      (buffers.map buffer_t.size).sum =
        ((List.range n).map fun i =>
          ((co_acquire_large_value slice.cache v.lb_ref).get_segment i).2).sum := by
  obtain ⟨dt, tr, hacq, hrel, ⟨hd, hs, hll, hcm, hm⟩, htr, pnone, pexp, pinl, pfail,
      pbig⟩ :=
    co_btree_get_leaf_paths N fuel now key slice caller d leaf_id h1 h2 hf hl hlt
  subst htr
  refine ⟨collect_segments (co_acquire_large_value slice.cache v.lb_ref), ?_, ?_, ?_, ?_, ?_⟩
  · rw [pbig v hv he hc hst]
    simp [prologue, leaf_events, large_found_events, hd]
  · simp [collect_segments_eq, hn]
  · intro i hi
    simp [collect_segments_eq, hn, List.getElem?_range, hi]
  · simp [collect_segments_eq, hn, List.map_map, Function.comp_def]
  · simp [collect_segments_eq, hn, List.map_map, Function.comp_def]

/-- C3 at the sample tree: key `[3]`, whose large value has the segments `[1, 2]` and `[3]`. -/
theorem C3_large_value_buffers_witness :
    (sample_slice.cache.superblock.root_block ≠ SUPERBLOCK_ID ∧
      sample_slice.cache.superblock.root_block ≠ NULL_BLOCK_ID ∧
      follow sample_slice.cache [3] 2 sample_slice.cache.superblock.root_block = some 4 ∧
      (sample_slice.cache.block 4).is_internal = false ∧ 2 < 5 ∧
      (sample_slice.cache.block 4).leaf_lookup [3] = some (sample_large 50 6 (some 10)) ∧
      (sample_large 50 6 (some 10)).is_large = true ∧
      (sample_large 50 6 (some 10)).expired 0 = false ∧
      (co_acquire_large_value sample_slice.cache (sample_large 50 6 (some 10)).lb_ref).state
        = .loaded ∧
      (co_acquire_large_value sample_slice.cache
        (sample_large 50 6 (some 10)).lb_ref).get_num_segments = 2) ∧
    ∃ buffers : const_buffer_group_t,
      delivered (co_btree_get false 5 0 [3] sample_slice 9).1.trace = [Found buffers 6] ∧
      buffers.length = 2 ∧
      (buffers.map buffer_t.data).flatten = [1, 2, 3] ∧
      (buffers.map buffer_t.size).sum = 3 := by
  refine ⟨⟨by decide, by decide, by decide, by decide, by decide, by decide, by decide,
    by decide, by decide, by decide⟩, ?_⟩
  obtain ⟨buffers, h1, h2, _, h4, h5⟩ :=
    C3_large_value_buffers false 5 0 [3] sample_slice 9 2 4 (sample_large 50 6 (some 10)) 2
      (by decide) (by decide) (by decide) (by decide) (by decide) (by decide) (by decide)
      (by decide) (by decide) (by decide)
  exact ⟨buffers, h1, h2, h4.trans (by decide), h5.trans (by decide)⟩

/-- C4: when the root block id in the superblock is `NULL_BLOCK_ID`, the lookup returns after
delivering `NotFound`; it acquires no block other than the superblock, releases the
superblock lock, holds no lock at the end, and commits the transaction. -/
theorem C4_empty_tree (N : Bool) (fuel now : Nat) (key : btree_key) (slice : btree_slice_t)
    (caller : Nat) (h : slice.cache.superblock.root_block = NULL_BLOCK_ID) :
    (co_btree_get N fuel now key slice caller).2 = .returned ∧
    delivered (co_btree_get N fuel now key slice caller).1.trace = [NotFound] ∧
    acquired (co_btree_get N fuel now key slice caller).1.trace = [SUPERBLOCK_ID] ∧
    released (co_btree_get N fuel now key slice caller).1.trace = [SUPERBLOCK_ID] ∧
    locks_held (co_btree_get N fuel now key slice caller).1.trace = [] ∧
    commits (co_btree_get N fuel now key slice caller).1.trace = 1 := by
  have h0 : NULL_BLOCK_ID ≠ SUPERBLOCK_ID := by decide
  rcases co_btree_get_paths N fuel now key slice caller with
    ⟨h', _⟩ | ⟨_, _, hr⟩ | ⟨_, h', _⟩ | ⟨_, h', _⟩
  · rw [h] at h'; exact absurd h' h0
  · rw [hr]
    simp [prologue, answer_events, locks_held, lock_step]
  · exact absurd h h'
  · exact absurd h h'

/-- C4 at the empty sample slice. -/
theorem C4_empty_tree_witness :
    empty_slice.cache.superblock.root_block = NULL_BLOCK_ID ∧
    (co_btree_get false 5 0 [1] empty_slice 9).2 = .returned ∧
    delivered (co_btree_get false 5 0 [1] empty_slice 9).1.trace = [NotFound] ∧
    acquired (co_btree_get false 5 0 [1] empty_slice 9).1.trace = [SUPERBLOCK_ID] ∧
    released (co_btree_get false 5 0 [1] empty_slice 9).1.trace = [SUPERBLOCK_ID] ∧
    locks_held (co_btree_get false 5 0 [1] empty_slice 9).1.trace = [] ∧
    commits (co_btree_get false 5 0 [1] empty_slice 9).1.trace = 1 :=
  ⟨rfl, C4_empty_tree false 5 0 [1] empty_slice 9 rfl⟩

/-- C5: on every path on which `co_btree_get` returns (empty tree, key not found, expired,
inline found, large found) the transaction has been committed exactly once, no block lock is
held any more, and the locks released are exactly the locks acquired, in the same order. -/
theorem C5_commit_once_no_lock_left (N : Bool) (fuel now : Nat) (key : btree_key)
    (slice : btree_slice_t) (caller : Nat)
    (h : (co_btree_get N fuel now key slice caller).2 = .returned) :
    commits (co_btree_get N fuel now key slice caller).1.trace = 1 ∧
    locks_held (co_btree_get N fuel now key slice caller).1.trace = [] ∧
    released (co_btree_get N fuel now key slice caller).1.trace =
      acquired (co_btree_get N fuel now key slice caller).1.trace := by
  have hq := dtrace_quiet N slice.cache key slice.home_thread fuel SUPERBLOCK_ID
    slice.cache.superblock.root_block
  have hrel := dtrace_released N slice.cache key slice.home_thread fuel SUPERBLOCK_ID
    slice.cache.superblock.root_block
  have hlk := dtrace_locks N slice.cache key slice.home_thread fuel SUPERBLOCK_ID
    slice.cache.superblock.root_block
  rcases co_btree_get_paths N fuel now key slice caller with
    ⟨_, hr⟩ | ⟨_, _, hr⟩ | ⟨_, _, hne, hr⟩ | ⟨_, _, _, lf, tr, hlf, htr, hcases⟩
  · rw [hr] at h; cases h
  · rw [hr]
    simp [prologue, answer_events, locks_held, lock_step]
  · rw [hr] at h; exact absurd h hne
  · subst hlf htr
    rcases hcases with ⟨_, hr⟩ | ⟨v, _, _, hr⟩ | ⟨v, _, _, _, hr⟩ |
      ⟨v, _, _, _, _, hr⟩ | ⟨v, _, _, _, _, hr⟩
    · rw [hr]
      simp [prologue, leaf_events, answer_events, locks_held, lock_step, hq, hlk, hrel]
    · rw [hr]
      simp [prologue, leaf_events, answer_events, locks_held, lock_step, hq, hlk, hrel]
    · rw [hr]
      simp [prologue, leaf_events, answer_events, locks_held, lock_step, hq, hlk, hrel]
    · rw [hr] at h; cases h
    · rw [hr]
      simp [prologue, leaf_events, large_found_events, locks_held, lock_step, hq, hlk, hrel]

/-- C5 at the sample tree: the lookup of key `[3]`, a large value that loads. -/
theorem C5_commit_once_no_lock_left_witness :
    (co_btree_get false 5 0 [3] sample_slice 9).2 = .returned ∧
    commits (co_btree_get false 5 0 [3] sample_slice 9).1.trace = 1 ∧
    locks_held (co_btree_get false 5 0 [3] sample_slice 9).1.trace = [] ∧
    released (co_btree_get false 5 0 [3] sample_slice 9).1.trace =
      acquired (co_btree_get false 5 0 [3] sample_slice 9).1.trace :=
  ⟨by decide, C5_commit_once_no_lock_left false 5 0 [3] sample_slice 9 (by decide)⟩

theorem cache_op_not_deliver (o : op_t) (h : is_cache_op o = true) : is_deliver o = false := by
  cases o <;> simp_all [is_cache_op, is_deliver]

/-- C6: whatever the caller's thread and the thread that owns the cache, in every run of
`co_btree_get` every operation on the cache (opening and committing the transaction, acquiring
and releasing a block lock, reading a block, loading and releasing a large value) is issued on
`slice->home_thread`, and every delivery of a result is issued on the caller's thread. -/
theorem C6_thread_affinity (N : Bool) (fuel now : Nat) (key : btree_key)
    (slice : btree_slice_t) (caller : Nat) (e : event_t)
    (he : e ∈ (co_btree_get N fuel now key slice caller).1.trace) :
    (is_cache_op e.op = true → e.thread = slice.home_thread) ∧
    (is_deliver e.op = true → e.thread = caller) := by
  have hth := dtrace_threads N slice.cache key slice.home_thread fuel SUPERBLOCK_ID
    slice.cache.superblock.root_block
  have hdt : ∀ x ∈ dtrace N slice.cache key fuel slice.home_thread SUPERBLOCK_ID
      slice.cache.superblock.root_block,
      (is_cache_op x.op = true → x.thread = slice.home_thread) ∧
      (is_deliver x.op = true → x.thread = caller) := by
    intro x hx
    obtain ⟨h1, h2⟩ := hth x hx
    exact ⟨fun _ => h1, fun h3 => by rw [cache_op_not_deliver _ h2] at h3; cases h3⟩
  revert e
  rcases co_btree_get_paths N fuel now key slice caller with
    ⟨_, hr⟩ | ⟨_, _, hr⟩ | ⟨_, _, hne, hr⟩ | ⟨_, _, _, lf, tr, hlf, htr, hcases⟩
  · rw [hr]
    simp [prologue, is_cache_op, is_deliver]
  · rw [hr]
    simp [prologue, answer_events, is_cache_op, is_deliver]
  · rw [hr]
    simp only [List.forall_mem_append]
    exact ⟨by simp [prologue, is_cache_op, is_deliver], hdt⟩
  · subst hlf htr
    rcases hcases with ⟨_, hr⟩ | ⟨v, _, _, hr⟩ | ⟨v, _, _, _, hr⟩ |
      ⟨v, _, _, _, _, hr⟩ | ⟨v, _, _, _, _, hr⟩ <;>
    rw [hr] <;> simp only [List.forall_mem_append, List.forall_mem_cons] <;>
    refine ⟨⟨⟨?_, hdt⟩, ?_⟩, ?_⟩ <;>
    simp [prologue, leaf_events, answer_events, large_found_events, is_cache_op, is_deliver]

/-- C6 at the sample tree: in the lookup of key `[3]`, started on thread 9, the root is read on
thread 3, which owns the cache. -/
theorem C6_thread_affinity_witness :
    (co_btree_get false 5 0 [3] sample_slice 9).1.trace[7]? =
      some { thread := 3, op := .get_data_read 1 .is_internal } ∧
    ({ thread := 3, op := .get_data_read 1 .is_internal } : event_t) ∈
      (co_btree_get false 5 0 [3] sample_slice 9).1.trace ∧
    ({ thread := 3, op := .get_data_read 1 .is_internal } : event_t).thread =
      sample_slice.home_thread :=
  ⟨by decide, by decide,
    (C6_thread_affinity false 5 0 [3] sample_slice 9
      { thread := 3, op := .get_data_read 1 .is_internal } (by decide)).1 rfl⟩

/-- C7: at every point of the trace of a run of `co_btree_get` at most two block locks are
held; two are held only right after the lock of a child has been acquired while the lock of
the parent (or of the superblock) was the only one held, and the very next event is then the
release of the parent's lock, so that no block is read in between; every read of a block
happens while the lock of that block and no other is held; and whenever the coroutine moves
to another thread no block lock is held. -/
theorem C7_lock_discipline (N : Bool) (fuel now : Nat) (key : btree_key)
    (slice : btree_slice_t) (caller : Nat) (pre post : List event_t)
    (h : (co_btree_get N fuel now key slice caller).1.trace = pre ++ post) :
    (locks_held pre).length ≤ 2 ∧
    ((locks_held pre).length = 2 →
      ∃ pre' a r post' child mode parent, pre = pre' ++ [a] ∧ post = r :: post' ∧
        a.op = .buf_lock_acquire child mode ∧ r.op = .buf_lock_release parent ∧
        locks_held pre' = [parent] ∧ locks_held pre = [child, parent]) ∧
    (∀ e post', post = e :: post' →
      (∀ id use, e.op = .get_data_read id use → locks_held pre = [id]) ∧
      (∀ t, e.op = .move_to_thread t → locks_held pre = [])) :=
  discipline_split _ (co_btree_get_disciplined N fuel now key slice caller).1
    (co_btree_get_disciplined N fuel now key slice caller).2 pre post h

/-- C7 at the sample tree: five events into the lookup of key `[1]` the locks of the root
and of the superblock are both held. -/
theorem C7_lock_discipline_witness :
    (co_btree_get false 5 0 [1] sample_slice 9).1.trace =
      List.take 5 (co_btree_get false 5 0 [1] sample_slice 9).1.trace ++
        List.drop 5 (co_btree_get false 5 0 [1] sample_slice 9).1.trace ∧
    locks_held (List.take 5 (co_btree_get false 5 0 [1] sample_slice 9).1.trace) = [1, 0] ∧
    (locks_held (List.take 5 (co_btree_get false 5 0 [1] sample_slice 9).1.trace)).length ≤ 2 :=
  ⟨(List.take_append_drop 5 _).symm, by decide,
    (C7_lock_discipline false 5 0 [1] sample_slice 9 _ _ (List.take_append_drop 5 _).symm).1⟩

/-- C8: when the root block id in the superblock is `SUPERBLOCK_ID` the run ends in the failed
assertion right after the superblock has been read: nothing is delivered and no node is
acquired.  When `internal_node::lookup` on a node `n` of the descent yields `NULL_BLOCK_ID` or
`SUPERBLOCK_ID` the run ends in the failed assertion with that lookup as its last event:
nothing is delivered and the blocks acquired are the superblock and the nodes down to `n`, so
the invalid id is not followed. -/
theorem C8_invalid_block_id_stops_the_lookup (N : Bool) (fuel now : Nat) (key : btree_key)
    (slice : btree_slice_t) (caller : Nat) :
    (slice.cache.superblock.root_block = SUPERBLOCK_ID →
      (co_btree_get N fuel now key slice caller).2 = .rassert_failed ∧
      delivered (co_btree_get N fuel now key slice caller).1.trace = [] ∧
      acquired (co_btree_get N fuel now key slice caller).1.trace = [SUPERBLOCK_ID] ∧
      (co_btree_get N fuel now key slice caller).1.trace.getLast? =
        some { thread := slice.home_thread, op := .get_data_read SUPERBLOCK_ID .root_block }) ∧
    (∀ k n, slice.cache.superblock.root_block ≠ SUPERBLOCK_ID →
      slice.cache.superblock.root_block ≠ NULL_BLOCK_ID →
      follow slice.cache key k slice.cache.superblock.root_block = some n →
      (slice.cache.block n).is_internal = true →
      ((slice.cache.block n).internal_lookup key = NULL_BLOCK_ID ∨
        (slice.cache.block n).internal_lookup key = SUPERBLOCK_ID) →
      k < fuel →
      (co_btree_get N fuel now key slice caller).2 = .rassert_failed ∧
      delivered (co_btree_get N fuel now key slice caller).1.trace = [] ∧
      acquired (co_btree_get N fuel now key slice caller).1.trace =
        SUPERBLOCK_ID :: visited slice.cache key k slice.cache.superblock.root_block ∧
      (co_btree_get N fuel now key slice caller).1.trace.getLast? =
        some { thread := slice.home_thread, op := .get_data_read n .internal_lookup }) := by
  refine ⟨fun h => ?_, fun k n h1 h2 hf hi hbad hlt => ?_⟩
  · rcases co_btree_get_paths N fuel now key slice caller with
      ⟨_, hr⟩ | ⟨h', _⟩ | ⟨h', _⟩ | ⟨h', _⟩
    · rw [hr]
      simp [prologue]
    · exact absurd h h'
    · exact absurd h h'
    · exact absurd h h'
  · have hv : valid_child ((slice.cache.block n).internal_lookup key) = false := by
      rcases hbad with hb | hb <;> rw [hb] <;> decide
    obtain ⟨hex, hh, hacq, hlast⟩ := descend_fatal N slice.cache key slice.home_thread n hi hv
      k fuel SUPERBLOCK_ID slice.cache.superblock.root_block hf hlt
    have hq := dtrace_quiet N slice.cache key slice.home_thread fuel SUPERBLOCK_ID
      slice.cache.superblock.root_block
    rcases co_btree_get_paths N fuel now key slice caller with
      ⟨h', _⟩ | ⟨_, h', _⟩ | ⟨_, _, _, hr⟩ | ⟨_, _, h', _⟩
    · exact absurd h' h1
    · exact absurd h' h2
    · rw [hr]
      refine ⟨hex, by simp [prologue, hq], by simp [prologue, hacq], ?_⟩
      simp only [prologue, List.cons_append, List.nil_append]
      repeat (first | exact hlast | apply getLast?_cons_of_some)
    · rw [hex] at h'
      cases h'

/-- C8 at the corrupt sample slice, whose root sends every key to `NULL_BLOCK_ID`. -/
theorem C8_invalid_block_id_stops_the_lookup_witness :
    (corrupt_slice.cache.superblock.root_block ≠ SUPERBLOCK_ID ∧
      corrupt_slice.cache.superblock.root_block ≠ NULL_BLOCK_ID ∧
      follow corrupt_slice.cache [1] 0 corrupt_slice.cache.superblock.root_block = some 1 ∧
      (corrupt_slice.cache.block 1).is_internal = true ∧
      (corrupt_slice.cache.block 1).internal_lookup [1] = NULL_BLOCK_ID ∧ 0 < 5) ∧
    (co_btree_get false 5 0 [1] corrupt_slice 9).2 = .rassert_failed ∧
    delivered (co_btree_get false 5 0 [1] corrupt_slice 9).1.trace = [] ∧
    acquired (co_btree_get false 5 0 [1] corrupt_slice 9).1.trace =
      SUPERBLOCK_ID :: visited corrupt_slice.cache [1] 0
        corrupt_slice.cache.superblock.root_block ∧
    (co_btree_get false 5 0 [1] corrupt_slice 9).1.trace.getLast? =
      some { thread := corrupt_slice.home_thread, op := .get_data_read 1 .internal_lookup } :=
  ⟨⟨by decide, by decide, by decide, by decide, by decide, by decide⟩,
    (C8_invalid_block_id_stops_the_lookup false 5 0 [1] corrupt_slice 9).2 0 1 (by decide)
      (by decide) (by decide) (by decide) (Or.inl (by decide)) (by decide)⟩

/-- C9 as stated fails.  In the sample tree every internal node sends every key to a valid
child of strictly smaller height and the root has height 2, yet the lookup of key `[4]`
acquires two tree nodes, not three: the superblock, the root and the leaf 2.  Moreover that
lookup delivers no result, since the large buffer of the value does not load. -/
theorem C9_counterexample_short_path :
    (∀ n key, (sample_slice.cache.block n).is_internal = true →
      valid_child ((sample_slice.cache.block n).internal_lookup key) = true ∧
      sample_height ((sample_slice.cache.block n).internal_lookup key) < sample_height n) ∧
    sample_height sample_slice.cache.superblock.root_block = 2 ∧
    acquired (co_btree_get false 5 0 [4] sample_slice 9).1.trace = [SUPERBLOCK_ID, 1, 2] ∧
    (sample_slice.cache.block 2).is_internal = false ∧
    (co_btree_get false 5 0 [4] sample_slice 9).2 = .rassert_failed ∧
    delivered (co_btree_get false 5 0 [4] sample_slice 9).1.trace = [] :=
  ⟨sample_heights_decrease, by decide, by decide, by decide, by decide, by decide⟩

/-- C9, amended: in a tree of height `h` in which every lookup on the way leads to a valid
child of strictly smaller height, the descent loop ends at a leaf after acquiring `d + 1`
tree nodes for some `d` that is at most `h`, and exactly `h` when every step lowers the height
by one and the leaf has height 0; the run then returns and delivers exactly one result, the
one `btree_get` hands back, unless the value found is a non-expired large reference whose
large buffer does not reach the state `loaded`. -/
theorem C9_descent_terminates (N : Bool) (now : Nat) (key : btree_key)
    (slice : btree_slice_t) (caller : Nat) (height : block_id_t → Nat)
    (h1 : slice.cache.superblock.root_block ≠ SUPERBLOCK_ID)
    (h2 : slice.cache.superblock.root_block ≠ NULL_BLOCK_ID)
    (hh : ∀ k n, follow slice.cache key k slice.cache.superblock.root_block = some n →
      (slice.cache.block n).is_internal = true →
      valid_child ((slice.cache.block n).internal_lookup key) = true ∧
      height ((slice.cache.block n).internal_lookup key) < height n) :
    ∃ d leaf_id, d ≤ height slice.cache.superblock.root_block ∧
      follow slice.cache key d slice.cache.superblock.root_block = some leaf_id ∧
      (slice.cache.block leaf_id).is_internal = false ∧
      ((∀ k n, follow slice.cache key k slice.cache.superblock.root_block = some n →
          (slice.cache.block n).is_internal = true →
          height ((slice.cache.block n).internal_lookup key) + 1 = height n) →
        height leaf_id = 0 → d = height slice.cache.superblock.root_block) ∧
      ∀ fuel, height slice.cache.superblock.root_block < fuel →
        acquired (co_btree_get N fuel now key slice caller).1.trace =
          SUPERBLOCK_ID :: visited slice.cache key d slice.cache.superblock.root_block ∧
        (visited slice.cache key d slice.cache.superblock.root_block).length = d + 1 ∧
        (visited slice.cache key d slice.cache.superblock.root_block).getLast? = some leaf_id ∧
        ((∀ v, (slice.cache.block leaf_id).leaf_lookup key = some v →
            v.expired now = false → v.is_large = true →
            (co_acquire_large_value slice.cache v.lb_ref).state = .loaded) →
          (co_btree_get N fuel now key slice caller).2 = .returned ∧
          ∃ res, delivered (co_btree_get N fuel now key slice caller).1.trace = [res] ∧
            btree_get N fuel now key slice caller = some res) := by
  obtain ⟨d, leaf_id, hd, hf, hl⟩ := follow_reaches_leaf slice.cache key height _
    slice.cache.superblock.root_block (Nat.le_refl _) hh
  refine ⟨d, leaf_id, hd, hf, hl, fun hex h0 => ?_, fun fuel hfuel => ?_⟩
  · have := follow_height_exact slice.cache key height d _ leaf_id hex hf
    omega
  · obtain ⟨dt, tr, hacq, hrel, ⟨hdl, hs, hll, hcm, hm⟩, htr, pnone, pexp, pinl, pfail,
        pbig⟩ :=
      co_btree_get_leaf_paths N fuel now key slice caller d leaf_id h1 h2 hf hl (by omega)
    subst htr
    refine ⟨co_btree_get_acquired_at_leaf N fuel now key slice caller d leaf_id h1 h2 hf hl
      (by omega), visited_length _ _ _ _, visited_getLast _ _ _ _ _ hf, fun hload => ?_⟩
    unfold btree_get
    cases hv : (slice.cache.block leaf_id).leaf_lookup key with
    | none =>
      rw [pnone hv]
      exact ⟨rfl, NotFound, by simp [prologue, leaf_events, answer_events, hdl]⟩
    | some v =>
      cases he : v.expired now with
      | true =>
        rw [pexp v hv he]
        exact ⟨rfl, NotFound, by simp [prologue, leaf_events, answer_events, hdl]⟩
      | false =>
        cases hc : v.is_large with
        | false =>
          rw [pinl v hv he hc]
          exact ⟨rfl, Found [{ size := v.value_size, data := v.value }] v.mcflags,
            by simp [prologue, leaf_events, answer_events, hdl]⟩
        | true =>
          rw [pbig v hv he hc (hload v hv he hc)]
          exact ⟨rfl, Found (collect_segments (co_acquire_large_value slice.cache v.lb_ref))
            v.mcflags, by simp [prologue, leaf_events, large_found_events, hdl]⟩

/-- C9 at the sample tree: the lookup of key `[1]`, which goes through both internal nodes. -/
theorem C9_descent_terminates_witness :
    (sample_slice.cache.superblock.root_block ≠ SUPERBLOCK_ID ∧
      sample_slice.cache.superblock.root_block ≠ NULL_BLOCK_ID) ∧
    ∃ d leaf_id, d ≤ sample_height sample_slice.cache.superblock.root_block ∧
      follow sample_slice.cache [1] d sample_slice.cache.superblock.root_block = some leaf_id ∧
      (sample_slice.cache.block leaf_id).is_internal = false ∧
      acquired (co_btree_get false 5 0 [1] sample_slice 9).1.trace =
        SUPERBLOCK_ID :: visited sample_slice.cache [1] d
          sample_slice.cache.superblock.root_block := by
  refine ⟨⟨by decide, by decide⟩, ?_⟩
  obtain ⟨d, leaf_id, hd, hf, hl, _, hrun⟩ :=
    C9_descent_terminates false 0 [1] sample_slice 9 sample_height (by decide) (by decide)
      (fun _ n _ hi => sample_heights_decrease n [1] hi)
  exact ⟨d, leaf_id, hd, hf, hl, (hrun 5 (by decide)).1⟩

/-- C10 as stated fails.  The lookup of key `[4]` of the sample tree at time 5 finds a
non-expired large value, yet that value is never released: its buffer does not reach the
state `loaded`, the assertion on it ends the run, and the run has neither a delivery, nor a
release of the large value, nor a commit. -/
theorem C10_counterexample_large_value_not_released :
    sample_slice.cache.superblock.root_block ≠ SUPERBLOCK_ID ∧
    sample_slice.cache.superblock.root_block ≠ NULL_BLOCK_ID ∧
    follow sample_slice.cache [4] 1 sample_slice.cache.superblock.root_block = some 2 ∧
    (sample_slice.cache.block 2).is_internal = false ∧
    (sample_slice.cache.block 2).leaf_lookup [4] = some (sample_large 60 2 (some 10)) ∧
    (sample_large 60 2 (some 10)).expired 5 = false ∧
    (sample_large 60 2 (some 10)).is_large = true ∧
    large_loads (co_btree_get false 5 5 [4] sample_slice 9).1.trace =
      [(sample_large 60 2 (some 10)).lb_ref] ∧
    milestones (co_btree_get false 5 5 [4] sample_slice 9).1.trace = [] ∧
    commits (co_btree_get false 5 5 [4] sample_slice 9).1.trace = 0 ∧
    (co_btree_get false 5 5 [4] sample_slice 9).2 = .rassert_failed := by
  decide

/-- C10, amended: a lookup that finds a non-expired large value whose large buffer reaches the
state `loaded` returns after delivering the result on the caller's thread, then releasing the
large value, exactly once and on the thread that owns the cache, and only then committing the
transaction; on every other path on which the lookup returns (empty tree, not found, expired,
inline) the commit comes before the delivery of the result. -/
theorem C10_release_after_delivery_before_commit (N : Bool) (fuel now : Nat)
    (key : btree_key) (slice : btree_slice_t) (caller : Nat) :
    (∀ d leaf_id v, slice.cache.superblock.root_block ≠ SUPERBLOCK_ID →
      slice.cache.superblock.root_block ≠ NULL_BLOCK_ID →
      follow slice.cache key d slice.cache.superblock.root_block = some leaf_id →
      (slice.cache.block leaf_id).is_internal = false → d < fuel →
      (slice.cache.block leaf_id).leaf_lookup key = some v →
      v.expired now = false → v.is_large = true →
      (co_acquire_large_value slice.cache v.lb_ref).state = .loaded →
      (co_btree_get N fuel now key slice caller).2 = .returned ∧
      ∃ res, milestones (co_btree_get N fuel now key slice caller).1.trace =
        [{ thread := caller, op := .deliver res },
          { thread := slice.home_thread, op := .large_release v.lb_ref },
          { thread := slice.home_thread, op := .commit }]) ∧
    ((co_btree_get N fuel now key slice caller).2 = .returned →
      (¬ (slice.cache.superblock.root_block ≠ NULL_BLOCK_ID ∧
        ∃ d leaf_id v,
          follow slice.cache key d slice.cache.superblock.root_block = some leaf_id ∧
          (slice.cache.block leaf_id).is_internal = false ∧
          (slice.cache.block leaf_id).leaf_lookup key = some v ∧
          v.expired now = false ∧ v.is_large = true)) →
      ∃ res, milestones (co_btree_get N fuel now key slice caller).1.trace =
        [{ thread := slice.home_thread, op := .commit },
          { thread := caller, op := .deliver res }]) := by
  have hq := dtrace_quiet N slice.cache key slice.home_thread fuel SUPERBLOCK_ID
    slice.cache.superblock.root_block
  refine ⟨fun d leaf_id v h1 h2 hf hl hlt hv he hc hst => ?_, fun hret hnot => ?_⟩
  · obtain ⟨dt, tr, hacq, hrel, ⟨hd, hs, hll, hcm, hm⟩, htr, pnone, pexp, pinl, pfail,
        pbig⟩ :=
      co_btree_get_leaf_paths N fuel now key slice caller d leaf_id h1 h2 hf hl hlt
    subst htr
    rw [pbig v hv he hc hst]
    exact ⟨rfl, Found (collect_segments (co_acquire_large_value slice.cache v.lb_ref))
      v.mcflags, by simp [prologue, leaf_events, large_found_events, hm]⟩
  · rcases co_btree_get_paths N fuel now key slice caller with
      ⟨_, hr⟩ | ⟨_, hnull, hr⟩ | ⟨_, _, hne, hr⟩ |
      ⟨_, hnn, hex, lf, tr, hlf, htr, hcases⟩
    · rw [hr] at hret; cases hret
    · rw [hr]
      exact ⟨NotFound, by simp [prologue, answer_events]⟩
    · rw [hr] at hret; exact absurd hret hne
    · obtain ⟨d0, _, hf0, hl0⟩ := descend_returned N slice.cache key slice.home_thread fuel
        SUPERBLOCK_ID slice.cache.superblock.root_block hex
      rw [← hlf] at hf0 hl0
      subst htr
      rcases hcases with ⟨hn, hr⟩ | ⟨w, hw, he, hr⟩ | ⟨w, hw, he, hc, hr⟩ |
        ⟨w, hw, he, hc, hst, hr⟩ | ⟨w, hw, he, hc, hst, hr⟩
      · rw [hr]
        exact ⟨NotFound, by simp [prologue, leaf_events, answer_events, hq]⟩
      · rw [hr]
        exact ⟨NotFound, by simp [prologue, leaf_events, answer_events, hq]⟩
      · rw [hr]
        exact ⟨Found [{ size := w.value_size, data := w.value }] w.mcflags,
          by simp [prologue, leaf_events, answer_events, hq]⟩
      · rw [hr] at hret; cases hret
      · exact absurd ⟨hnn, d0, lf, w, hf0, hl0, hw, he, hc⟩ hnot

/-- C10 at the sample tree: the lookup of key `[3]`, a large value that loads. -/
theorem C10_release_after_delivery_before_commit_witness :
    (sample_slice.cache.superblock.root_block ≠ SUPERBLOCK_ID ∧
      sample_slice.cache.superblock.root_block ≠ NULL_BLOCK_ID ∧
      follow sample_slice.cache [3] 2 sample_slice.cache.superblock.root_block = some 4 ∧
      (sample_slice.cache.block 4).is_internal = false ∧ 2 < 5 ∧
      (sample_slice.cache.block 4).leaf_lookup [3] = some (sample_large 50 6 (some 10)) ∧
      (sample_large 50 6 (some 10)).expired 0 = false ∧
      (sample_large 50 6 (some 10)).is_large = true ∧
      (co_acquire_large_value sample_slice.cache (sample_large 50 6 (some 10)).lb_ref).state
        = .loaded) ∧
    (co_btree_get false 5 0 [3] sample_slice 9).2 = .returned ∧
    ∃ res, milestones (co_btree_get false 5 0 [3] sample_slice 9).1.trace =
      [{ thread := 9, op := .deliver res },
        { thread := sample_slice.home_thread,
          op := .large_release (sample_large 50 6 (some 10)).lb_ref },
        { thread := sample_slice.home_thread, op := .commit }] :=
  ⟨⟨by decide, by decide, by decide, by decide, by decide, by decide, by decide, by decide,
      by decide⟩,
    (C10_release_after_delivery_before_commit false 5 0 [3] sample_slice 9).1 2 4
      (sample_large 50 6 (some 10)) (by decide) (by decide) (by decide) (by decide)
      (by decide) (by decide) (by decide) rfl (by decide)⟩

end Btree
